import Mathlib

/-!
Verification of the vendor-quotation analysis backend (vendor_QA).

The Python sources are shallowly embedded: `float` arithmetic is read as exact
rational arithmetic over `ℚ` (a separate IEEE-754 binary64 side model `roundD`
is used where a claim hinges on double rounding), Python `int` is `ℤ`,
fallible operations return `Except`, and the pandas frame operations are
modelled by explicit list computations whose tie-breaking follows the pandas
implementation (`nargsort` / first-occurrence `idxmin`) under a stable sort
kernel — an idealization that matches the source's default `kind='quicksort'`
only while ties stay within numpy's insertion-sorted small partitions; see
`stableDescArgsort` and claim C1.
-/

namespace VendorQA

/- Batteries marks the `Rat` field operations `@[irreducible]`, which blocks
the elaborator-side reduction used by `decide` on concrete rational
computations; restore the default reducibility for this development.  (Kernel
checking is unaffected either way.) -/
attribute [local semireducible] Rat.add Rat.mul Rat.inv Rat.sub Rat.ofScientific

instance {ε α : Type} [DecidableEq ε] [DecidableEq α] : DecidableEq (Except ε α) :=
  fun a b =>
    match a, b with
    | .ok x, .ok y =>
      if h : x = y then .isTrue (by rw [h]) else .isFalse (by simp [h])
    | .error x, .error y =>
      if h : x = y then .isTrue (by rw [h]) else .isFalse (by simp [h])
    | .ok _, .error _ => .isFalse (by simp)
    | .error _, .ok _ => .isFalse (by simp)

/-! ## Python numeric helpers -/

/-- Round a rational to the nearest integer with ties to even, the behaviour of
Python `round` and of IEEE-754 rounding. -/
def roundHalfEven (q : ℚ) : ℤ :=
  let f := ⌊q⌋
  let r := q - (f : ℚ)
  if r < 1/2 then f
  else if 1/2 < r then f + 1
  else if f % 2 = 0 then f else f + 1

/-- Python `round(x, 1)`. -/
def pyRound1 (q : ℚ) : ℚ := (roundHalfEven (q * 10) : ℚ) / 10

/-- Python `round(x, 2)`. -/
def pyRound2 (q : ℚ) : ℚ := (roundHalfEven (q * 100) : ℚ) / 100

/-- Python `int(x)` on a float: truncation toward zero. -/
def pyTrunc (q : ℚ) : ℤ := if q < 0 then -⌊-q⌋ else ⌊q⌋

/-- Minimum of a list of rationals, 0 on the empty list (the engines only apply
it to non-empty frames). -/
def listMin : List ℚ → ℚ
  | [] => 0
  | x :: xs => xs.foldl min x

/-- Maximum of a list of rationals, 0 on the empty list. -/
def listMax : List ℚ → ℚ
  | [] => 0
  | x :: xs => xs.foldl max x

/-- Mean of a list of rationals (pandas `Series.mean`), 0 on the empty list. -/
def listMean (xs : List ℚ) : ℚ :=
  if xs.length = 0 then 0 else xs.sum / (xs.length : ℚ)

/-! ## Payment-term maps (claim C6)

`VendorQuotationDB._map_payment_term` (src/db_integration.py, lines 417-435)
and `LineItemComparisonEngine._map_payment_term`
(src/line_item_comparison_engine.py, lines 224-231); both are
`dict.get(code, 0)` lookups on string keys. -/

/-- Gateway payment-term lookup (db_integration.py:417-435). -/
def mapPaymentTermDB (code : String) : ℤ :=
  if code = "000" then 0
  else if code = "015" then 15
  else if code = "030" then 30
  else if code = "060" then 60
  else if code = "090" then 90
  else 0

/-- Line-item engine payment-term lookup (line_item_comparison_engine.py:224-231). -/
def mapPaymentTermLineItem (code : String) : ℤ :=
  if code = "00" then 0
  else if code = "01" then 90
  else if code = "02" then 30
  else if code = "03" then 45
  else if code = "04" then 60
  else if code = "05" then 90
  else if code = "000" then 0
  else if code = "015" then 15
  else if code = "030" then 30
  else if code = "060" then 60
  else if code = "090" then 90
  else 0

/-- Keys of the gateway lookup table. -/
def gatewayCodes : List String := ["000", "015", "030", "060", "090"]

/-- Two-digit keys that only the line-item lookup recognises. -/
def twoDigitCodes : List String := ["00", "01", "02", "03", "04", "05"]

/-! ## Input data model

One entry of the `vendors_data` list consumed by both ranking engines
(the output shape of `VendorQuotationDB.transform_to_comparison_format` and of
the manual-entry conversion in src/main_api.py): the nested
`vendor['parameters']` dict is flattened into the three numeric fields. -/

/-- A material row of `vendor['materials']` (also the `MaterialInfo` model of
src/models.py:65-71). -/
structure MaterialIn where
  mat_code : String
  mat_text : String
  price : ℚ
  qty : ℚ
  uom : String
deriving Repr, DecidableEq, Inhabited

/-- The `vendor['contact']` dict (also `VendorContact`, src/models.py:74-78). -/
structure ContactIn where
  email : String
  person : String
  phone : String
deriving Repr, DecidableEq, Inhabited

/-- One `vendors_data` entry; `price`, `payment_terms_days` and `delivery_days`
are `vendor['parameters']` with the `.get(_, 0)` defaults already applied. -/
structure VendorIn where
  vendor_name : String
  vendor_no : String
  price : ℚ
  payment_terms_days : ℤ
  delivery_days : ℤ
  materials : List MaterialIn
  contact : ContactIn
deriving Repr, DecidableEq, Inhabited

/-- Modelled from the spec: `DimensionScore` (spec §3) is part of the
repository data model — `comparison_engine_enhanced.py` imports it from
`models` — but its class body is missing from src/models.py; the fields follow
the spec sentence and the keyword arguments used at the construction sites
(comparison_engine_enhanced.py:142-179). -/
structure DimensionScore where
  dimension_code : String
  score : Option ℚ := none
  bool_value : Option Bool := none
  confidence : ℤ
  evidence_text : String
deriving Repr, DecidableEq, Inhabited

/-- Modelled from the spec: `CategoryWinnerDetail` (spec §3), likewise imported
by the enhanced engine but missing from src/models.py. -/
structure CategoryWinnerDetail where
  dimension_code : String
  category_label : String
  badge_color : String
deriving Repr, DecidableEq, Inhabited

/-- Modelled from the spec: `VendorAnalysis` (spec §3), the enhanced per-vendor
result record, imported by the enhanced engine but missing from src/models.py;
fields follow the construction call comparison_engine_enhanced.py:223-239. -/
structure VendorAnalysis where
  rank : ℤ
  vendor_name : String
  vendor_no : String
  overall_score : ℚ
  quoted_amount : ℚ
  dimension_scores : List DimensionScore
  category_winners : List CategoryWinnerDetail
  score : ℚ
  display_score : ℤ
  price : ℚ
  payment_terms_days : ℤ
  delivery_days : ℤ
  materials : List MaterialIn
  contact : ContactIn
deriving Repr, DecidableEq, Inhabited

/-- Errors with which `rank_vendors` escapes instead of returning a ranking:
the `ValueError` raised by `.idxmin()` on the empty `delivery_days > 0`
selection, and the pydantic `ValidationError` raised when a model is
constructed without one of its required fields. -/
inductive EngineError where
  | emptyDeliveryPool
  | missingRequiredFields (fields : List String)
deriving Repr, DecidableEq

/-! ## Enhanced ranking engine (src/comparison_engine_enhanced.py) -/

/-- Priority weight table of `VendorComparisonEngine.__init__`
(comparison_engine_enhanced.py:21-54). -/
structure Weights where
  price : ℚ
  payment_terms : ℚ
  delivery : ℚ
deriving Repr, DecidableEq

/-- Weight configuration selected by the `priority` argument. -/
def weightsFor (priority : String) : Weights :=
  if priority = "low_price" then ⟨6/10, 2/10, 2/10⟩
  else if priority = "fast_delivery" then ⟨2/10, 2/10, 6/10⟩
  else if priority = "payment_terms" then ⟨2/10, 6/10, 2/10⟩
  else ⟨34/100, 33/100, 33/100⟩

/-- pandas `Series.rank(ascending=True)` with the default `average` tie method,
evaluated at one value of the series: tied values share the mean of the
positions they occupy. -/
def rankAvgAsc (xs : List ℚ) (x : ℚ) : ℚ :=
  (xs.countP (fun y => y < x) : ℚ) + ((xs.countP (fun y => y = x) : ℚ) + 1) / 2

/-- pandas `Series.rank(ascending=False)` with the `average` tie method. -/
def rankAvgDesc (xs : List ℚ) (x : ℚ) : ℚ :=
  (xs.countP (fun y => x < y) : ℚ) + ((xs.countP (fun y => y = x) : ℚ) + 1) / 2

/-- The weighted composite rank score of comparison_engine_enhanced.py:94-112:
normalized rank fractions (price, delivery ascending; payment descending)
times the priority weights times 10. -/
def compositeScore (w : Weights) (n : ℕ) (prices deliveries payments : List ℚ)
    (p d pay : ℚ) : ℚ :=
  ((n - rankAvgAsc prices p + 1) / n) * w.price * 10 +
  ((n - rankAvgAsc deliveries d + 1) / n) * w.delivery * 10 +
  (rankAvgDesc payments pay / n) * w.payment_terms * 10

/-- The extracted comparison row (comparison_engine_enhanced.py:70-89). -/
structure Row where
  vendor_name : String
  vendor_no : String
  price : ℚ
  payment_days : ℤ
  delivery_days : ℤ
  materials : List MaterialIn
  contact : ContactIn
  quoted_amount : ℚ
deriving Repr, DecidableEq, Inhabited

/-- Data extraction of comparison_engine_enhanced.py:70-89; `quoted_amount` is
the sum of `price × qty` over the vendor's materials. -/
def extractRow (v : VendorIn) : Row :=
  { vendor_name := v.vendor_name
    vendor_no := v.vendor_no
    price := v.price
    payment_days := v.payment_terms_days
    delivery_days := v.delivery_days
    materials := v.materials
    contact := v.contact
    quoted_amount := (v.materials.map (fun m => m.price * m.qty)).sum }

/-- Ordering key of `df.sort_values(score, ascending=False)` under a STABLE
sort kernel: pandas `nargsort` reverses the frame, runs an ascending argsort
and reverses the resulting indexer, so with a stable kernel positions end up
ordered by descending score with ties kept in original order — the
lexicographic key (score descending, position ascending).  The source leaves
the kernel at numpy's default `kind='quicksort'` (introsort), which is
documented as unstable and degenerates to a stable insertion sort only below
its small-array threshold of about 16 elements, so this key describes the
program's order exactly only when no tie spans a larger partition; for larger
tied pools the program's tie order is unspecified.  See claim C1, which
records this as a bug against the claimed stable tie-break. -/
def keyDesc (scores : List ℚ) (i j : ℕ) : Prop :=
  scores.getD j 0 < scores.getD i 0 ∨ (scores.getD i 0 = scores.getD j 0 ∧ i ≤ j)

instance (scores : List ℚ) : DecidableRel (keyDesc scores) := fun i j => by
  unfold keyDesc; infer_instance

instance (scores : List ℚ) : IsTotal ℕ (keyDesc scores) where
  total i j := by
    unfold keyDesc
    rcases lt_trichotomy (scores.getD i 0) (scores.getD j 0) with h | h | h
    · exact Or.inr (Or.inl h)
    · rcases Nat.le_total i j with hij | hij
      · exact Or.inl (Or.inr ⟨h, hij⟩)
      · exact Or.inr (Or.inr ⟨h.symm, hij⟩)
    · exact Or.inl (Or.inl h)

instance (scores : List ℚ) : IsTrans ℕ (keyDesc scores) where
  trans i j k := by
    unfold keyDesc
    rintro (h₁ | ⟨e₁, l₁⟩) (h₂ | ⟨e₂, l₂⟩)
    · exact Or.inl (h₂.trans h₁)
    · exact Or.inl (by rw [← e₂]; exact h₁)
    · exact Or.inl (by rw [e₁]; exact h₂)
    · exact Or.inr ⟨e₁.trans e₂, l₁.trans l₂⟩

/-- The permutation performed by `df.sort_values(score, ascending=False)`
when the sort kernel is stable: row positions sorted by `keyDesc`.  This is an
idealization of the source, which uses numpy's default unstable
`kind='quicksort'`: the two agree whenever every group of tied scores lies
within an insertion-sorted partition (in particular on every pool of at most
16 rows, and on every pool with pairwise distinct scores), but on larger tied
pools the source gives no guarantee matching this definition (claim C1). -/
def stableDescArgsort (scores : List ℚ) : List ℕ :=
  List.insertionSort (keyDesc scores) (List.range scores.length)

/-- Ordering key of the ascending `df.sort_values(score)` used by the basic
engine, again under a stable kernel: score ascending, ties in original order.
The same caveat as for `keyDesc` applies to tied pools beyond numpy's
insertion-sort threshold; the theorems stated over this order do not depend
on how ties are broken. -/
def keyAsc (scores : List ℚ) (i j : ℕ) : Prop :=
  scores.getD i 0 < scores.getD j 0 ∨ (scores.getD i 0 = scores.getD j 0 ∧ i ≤ j)

instance (scores : List ℚ) : DecidableRel (keyAsc scores) := fun i j => by
  unfold keyAsc; infer_instance

instance (scores : List ℚ) : IsTotal ℕ (keyAsc scores) where
  total i j := by
    unfold keyAsc
    rcases lt_trichotomy (scores.getD i 0) (scores.getD j 0) with h | h | h
    · exact Or.inl (Or.inl h)
    · rcases Nat.le_total i j with hij | hij
      · exact Or.inl (Or.inr ⟨h, hij⟩)
      · exact Or.inr (Or.inr ⟨h.symm, hij⟩)
    · exact Or.inr (Or.inl h)

instance (scores : List ℚ) : IsTrans ℕ (keyAsc scores) where
  trans i j k := by
    unfold keyAsc
    rintro (h₁ | ⟨e₁, l₁⟩) (h₂ | ⟨e₂, l₂⟩)
    · exact Or.inl (h₁.trans h₂)
    · exact Or.inl (e₂ ▸ h₁)
    · exact Or.inl (e₁ ▸ h₂)
    · exact Or.inr ⟨e₁.trans e₂, l₁.trans l₂⟩

/-- The permutation performed by the ascending `df.sort_values(score)` when
the sort kernel is stable (see `stableDescArgsort` for when the source's
default quicksort kernel matches this). -/
def ascArgsort (scores : List ℚ) : List ℕ :=
  List.insertionSort (keyAsc scores) (List.range scores.length)

/-! ### Dimension scores (`_calculate_dimension_scores`,
comparison_engine_enhanced.py:244-414) -/

/-- Python `f"{x:.0f}"`: round half to even to an integer and print it. -/
def fmt0f (q : ℚ) : String := toString (roundHalfEven q)

/-- Python `f"{x:.1f}"` for the non-negative values formatted by the engine. -/
def fmt1f (q : ℚ) : String :=
  let n := roundHalfEven (q * 10)
  let s := if n < 0 then "-" else ""
  s ++ toString (n.natAbs / 10) ++ "." ++ toString (n.natAbs % 10)

/-- Pool statistics computed at comparison_engine_enhanced.py:255-266 (the
unused mean price and mean payment are omitted). -/
structure PoolStats where
  minPrice : ℚ
  maxPrice : ℚ
  minDelivery : ℚ
  maxDelivery : ℚ
  avgDelivery : ℚ
  minPayment : ℚ
  maxPayment : ℚ
deriving Repr, DecidableEq

/-- Pool statistics of a list of rows. -/
def poolStats (rows : List Row) : PoolStats :=
  let prices := rows.map (·.price)
  let deliveries := rows.map (fun r => (r.delivery_days : ℚ))
  let payments := rows.map (fun r => (r.payment_days : ℚ))
  { minPrice := listMin prices
    maxPrice := listMax prices
    minDelivery := listMin deliveries
    maxDelivery := listMax deliveries
    avgDelivery := listMean deliveries
    minPayment := listMin payments
    maxPayment := listMax payments }

/-- Price competitiveness score, comparison_engine_enhanced.py:269-292.  When
`minP = 0 < maxP` the source's `(price - min)/min` is a numpy float division
yielding `inf` (price above the zero minimum) or `nan` (price at it); every
threshold comparison in the chain then fails and the final branch yields 1.5
in both cases, so that outcome is folded into the `minP = 0` test. -/
def priceScoreRaw (minP maxP p : ℚ) : ℚ :=
  if minP < maxP then
    if minP = 0 then 3/2
    else
      let pct := (p - minP) / minP * 100
      if pct = 0 then 10
      else if pct < 2 then 19/2
      else if pct < 5 then 9
      else if pct < 10 then 15/2
      else if pct < 15 then 6
      else if pct < 20 then 9/2
      else if pct < 30 then 3
      else 3/2
  else 10

/-- Delivery speed score, comparison_engine_enhanced.py:310-329; the percentage
is forced to 0 when the pool minimum is not positive. -/
def deliveryScoreRaw (minD maxD d : ℚ) : ℚ :=
  if minD < maxD then
    let pct := if 0 < minD then (d - minD) / minD * 100 else 0
    if pct = 0 then 10
    else if pct < 10 then 9
    else if pct < 20 then 15/2
    else if pct < 30 then 6
    else if pct < 50 then 9/2
    else 3
  else 10

/-- Payment-terms score, comparison_engine_enhanced.py:346-355. -/
def paymentScoreRaw (minPay maxPay pay : ℚ) : ℚ :=
  if minPay < maxPay then 10 * ((pay - minPay) / (maxPay - minPay))
  else if 0 < pay then 10 else 3

/-- Overall score, comparison_engine_enhanced.py:403-412: the three weighted
dimension scores plus a flat 10% contribution of the fixed 8.0 history score,
rounded to one decimal. -/
def overallScoreRaw (w : Weights) (ps ds pays : ℚ) : ℚ :=
  pyRound1 ((ps/10 * w.price + ds/10 * w.delivery + pays/10 * w.payment_terms
    + (8/10) * (1/10)) * 10)

/-- Price evidence text and confidence (comparison_engine_enhanced.py:294-304). -/
def priceEvidence (minP p : ℚ) : String × ℤ :=
  let diff := if 0 < minP then (p - minP) / minP * 100 else 0
  if p = minP then ("Best price at ₹" ++ fmt0f p ++ "/unit", 95)
  else if diff < 10 then
    ("Competitive at ₹" ++ fmt0f p ++ "/unit (" ++ fmt1f diff ++ "% above lowest)", 90)
  else ("₹" ++ fmt0f p ++ "/unit (" ++ fmt1f diff ++ "% above lowest bid)", 92)

/-- Delivery evidence text and confidence (comparison_engine_enhanced.py:331-340). -/
def deliveryEvidence (minD avgD : ℚ) (d : ℤ) : String × ℤ :=
  if (d : ℚ) = minD then ("Fastest delivery at " ++ toString d ++ " days", 95)
  else if (d : ℚ) ≤ avgD then (toString d ++ "-day delivery - faster than average", 88)
  else (toString d ++ "-day delivery - acceptable timeline", 85)

/-- Payment evidence text and confidence (comparison_engine_enhanced.py:357-366). -/
def paymentEvidence (pay : ℤ) : String × ℤ :=
  if pay = 0 then ("Advance payment required - impacts cash flow", 95)
  else if 30 ≤ pay then (toString pay ++ "-day credit terms - excellent for cash flow", 90)
  else (toString pay ++ "-day credit terms", 88)

/-- Capacity evidence text (comparison_engine_enhanced.py:392-397). -/
def capacityEvidence (materials : List MaterialIn) : String :=
  let totalQty := (materials.map (·.qty)).sum
  if 0 < totalQty then "Can handle " ++ fmt0f totalQty ++ " units volume"
  else "Adequate capacity"

/-- The six `DimensionScore` entries built for one row
(comparison_engine_enhanced.py:142-179 and 268-401); numeric dimension scores
are stored rounded to one decimal. -/
def dimensionScoresFor (st : PoolStats) (r : Row) : List DimensionScore :=
  let pe := priceEvidence st.minPrice r.price
  let de := deliveryEvidence st.minDelivery st.avgDelivery r.delivery_days
  let paye := paymentEvidence r.payment_days
  [ { dimension_code := "PRICE"
      score := some (pyRound1 (priceScoreRaw st.minPrice st.maxPrice r.price))
      confidence := pe.2, evidence_text := pe.1 }
  , { dimension_code := "DELIVERY"
      score := some (pyRound1 (deliveryScoreRaw st.minDelivery st.maxDelivery r.delivery_days))
      confidence := de.2, evidence_text := de.1 }
  , { dimension_code := "PAYMENT_TERMS"
      score := some (pyRound1 (paymentScoreRaw st.minPayment st.maxPayment r.payment_days))
      confidence := paye.2, evidence_text := paye.1 }
  , { dimension_code := "VENDOR_HISTORY"
      score := some 8, confidence := 80
      evidence_text := "Established supplier with good track record" }
  , { dimension_code := "QUALITY_COMP"
      bool_value := some true, confidence := 85
      evidence_text := "Vendor meets quality standards" }
  , { dimension_code := "CAPACITY"
      bool_value := some true, confidence := 88
      evidence_text := capacityEvidence r.materials } ]

/-- Display score of comparison_engine_enhanced.py:129-139 with the float
arithmetic read as exact rational arithmetic; `displayScoreFP` below models
the same line under IEEE-754 double semantics, which differs for some large
pools (claim C4). -/
def displayScoreExact (total rank : ℕ) : ℤ :=
  if 1 < total then pyTrunc (100 - ((rank : ℚ) - 1) * (80 / ((total : ℚ) - 1)))
  else 100

/-- Category-winner names identified at comparison_engine_enhanced.py:122-125
on the sorted frame: `idxmin`/`idxmax` return the first row of the frame, in
its current (sorted) order, attaining the optimum; the fastest-delivery lookup
restricts to rows with positive delivery and raises on an empty selection. -/
def bestPriceName (sorted : List Row) (st : PoolStats) : String :=
  ((sorted.find? (fun r => r.price = st.minPrice)).map (·.vendor_name)).getD ""

def bestPaymentName (sorted : List Row) (st : PoolStats) : String :=
  ((sorted.find? (fun r => (r.payment_days : ℚ) = st.maxPayment)).map (·.vendor_name)).getD ""

def bestDeliveryName (sorted : List Row) : Option String :=
  let positive := sorted.filter (fun r => 0 < r.delivery_days)
  let minPos := listMin (positive.map (fun r => (r.delivery_days : ℚ)))
  (positive.find? (fun r => (r.delivery_days : ℚ) = minPos)).map (·.vendor_name)

/-- Category-winner badges of one row (comparison_engine_enhanced.py:181-200):
name equality against the three winner names. -/
def categoryWinnersFor (bp bd bpay : String) (r : Row) : List CategoryWinnerDetail :=
  (if r.vendor_name = bp then
    [{ dimension_code := "PRICE", category_label := "Best Price", badge_color := "GREEN" }]
   else []) ++
  (if r.vendor_name = bd then
    [{ dimension_code := "DELIVERY", category_label := "Fastest Delivery",
       badge_color := "ORANGE" }]
   else []) ++
  (if r.vendor_name = bpay then
    [{ dimension_code := "PAYMENT_TERMS", category_label := "Best Payment Terms",
       badge_color := "BLUE" }]
   else [])

/-- The `VendorAnalysis` built for the row at (0-based) sorted position `pos`
(comparison_engine_enhanced.py:129-241). -/
def mkAnalysis (w : Weights) (st : PoolStats) (total : ℕ) (bp bd bpay : String)
    (pos : ℕ) (r : Row) (sc : ℚ) : VendorAnalysis :=
  { rank := (pos : ℤ) + 1
    vendor_name := r.vendor_name
    vendor_no := r.vendor_no
    overall_score := overallScoreRaw w (priceScoreRaw st.minPrice st.maxPrice r.price)
      (deliveryScoreRaw st.minDelivery st.maxDelivery r.delivery_days)
      (paymentScoreRaw st.minPayment st.maxPayment r.payment_days)
    quoted_amount := r.quoted_amount
    dimension_scores := dimensionScoresFor st r
    category_winners := categoryWinnersFor bp bd bpay r
    score := sc
    display_score := displayScoreExact total (pos + 1)
    price := r.price
    payment_terms_days := r.payment_days
    delivery_days := r.delivery_days
    materials := r.materials
    contact := r.contact }

/-- The extracted comparison rows of an input list. -/
def rowsOf (vendors : List VendorIn) : List Row := vendors.map extractRow

/-- The composite rank-score column (comparison_engine_enhanced.py:94-112),
one entry per row in input order. -/
def scoresOf (priority : String) (vendors : List VendorIn) : List ℚ :=
  let rows := rowsOf vendors
  let prices := rows.map (·.price)
  let deliveries := rows.map (fun r => (r.delivery_days : ℚ))
  let payments := rows.map (fun r => (r.payment_days : ℚ))
  rows.map (fun r =>
    compositeScore (weightsFor priority) rows.length prices deliveries payments
      r.price r.delivery_days r.payment_days)

/-- The row order after `df.sort_values('rank_score', ascending=False)`,
under the stable-kernel idealization of `stableDescArgsort`. -/
def orderOf (priority : String) (vendors : List VendorIn) : List ℕ :=
  stableDescArgsort (scoresOf priority vendors)

/-- The sorted frame. -/
def sortedOf (priority : String) (vendors : List VendorIn) : List Row :=
  (orderOf priority vendors).map (fun i => (rowsOf vendors).getD i default)

/-- Pool statistics of the input list. -/
def poolStatsOf (vendors : List VendorIn) : PoolStats := poolStats (rowsOf vendors)

/-- The result list built at comparison_engine_enhanced.py:127-243, given the
fastest-delivery winner name `bd`. -/
def analysesOf (priority : String) (vendors : List VendorIn) (bd : String) :
    List VendorAnalysis :=
  (orderOf priority vendors).enum.map (fun pi =>
    mkAnalysis (weightsFor priority) (poolStatsOf vendors) (rowsOf vendors).length
      (bestPriceName (sortedOf priority vendors) (poolStatsOf vendors)) bd
      (bestPaymentName (sortedOf priority vendors) (poolStatsOf vendors))
      pi.1 ((rowsOf vendors).getD pi.2 default) ((scoresOf priority vendors).getD pi.2 0))

/-- `VendorComparisonEngine.rank_vendors` of the enhanced engine
(comparison_engine_enhanced.py:56-243). -/
def rankVendorsEnhanced (priority : String) (vendors : List VendorIn) :
    Except EngineError (List VendorAnalysis) :=
  if vendors.isEmpty then .ok []
  else
    match bestDeliveryName (sortedOf priority vendors) with
    | none => .error .emptyDeliveryPool
    | some bd => .ok (analysesOf priority vendors bd)

/-! ## Basic ranking engine (src/comparison_engine.py)

The legacy rank-sum engine.  Its construction site (lines 124-134) builds the
pydantic `RankingResult` of src/models.py:81-93 without the `vendor_no` and
`display_score` keyword arguments, both of which the model declares as
required (`Field(...)` with no default), so pydantic raises a
`ValidationError` on the first constructed row. -/

/-- The `RankingResult` pydantic model (src/models.py:81-93). -/
structure RankingResult where
  rank : ℤ
  vendor_name : String
  vendor_no : String
  score : ℚ
  display_score : ℤ
  price : ℚ
  payment_terms_days : ℤ
  delivery_days : ℤ
  category_winners : List String
  materials : List MaterialIn
  contact : ContactIn
deriving Repr, DecidableEq, Inhabited

/-- Fields of `RankingResult` declared required in src/models.py (those with
`Field(...)` and no default value). -/
def rankingResultRequired : List String :=
  ["rank", "vendor_name", "vendor_no", "score", "display_score", "price",
   "payment_terms_days", "delivery_days"]

/-- Keyword arguments actually passed at the construction site
comparison_engine.py:124-134. -/
def basicCallKwargs : List String :=
  ["rank", "vendor_name", "score", "price", "payment_terms_days",
   "delivery_days", "category_winners", "materials", "contact"]

/-- pydantic validation of a `RankingResult` construction: reject the call
when a required field is missing from the supplied keyword arguments. -/
def mkRankingResultChecked (kwargs : List String) (r : RankingResult) :
    Except EngineError RankingResult :=
  let missing := rankingResultRequired.filter (fun f => ¬ kwargs.contains f)
  if missing.isEmpty then .ok r else .error (.missingRequiredFields missing)

/-- Rank-sum score of the basic engine (comparison_engine.py:52-80): the
priority dimension's rank weighted 3×, the others 1× (ascending rank for
price and delivery, descending for payment days). -/
def basicScore (priority : String) (n : ℕ) (prices deliveries payments : List ℚ)
    (p d pay : ℚ) : ℚ :=
  let _ := n
  if priority = "low_price" then
    rankAvgAsc prices p * 3 + rankAvgAsc deliveries d * 1 + rankAvgDesc payments pay * 1
  else if priority = "fast_delivery" then
    rankAvgAsc deliveries d * 3 + rankAvgAsc prices p * 1 + rankAvgDesc payments pay * 1
  else if priority = "payment_terms" then
    rankAvgDesc payments pay * 3 + rankAvgAsc prices p * 1 + rankAvgAsc deliveries d * 1
  else
    rankAvgAsc prices p + rankAvgAsc deliveries d + rankAvgDesc payments pay

/-- The rank-score column of the basic engine, one entry per row in input
order. -/
def basicScoresOf (priority : String) (vendors : List VendorIn) : List ℚ :=
  let rows := rowsOf vendors
  let prices := rows.map (·.price)
  let deliveries := rows.map (fun r => (r.delivery_days : ℚ))
  let payments := rows.map (fun r => (r.payment_days : ℚ))
  rows.map (fun r =>
    basicScore priority rows.length prices deliveries payments
      r.price r.delivery_days r.payment_days)

/-- The sorted frame of the basic engine (`sort_values('rank_score')`,
ascending and stable). -/
def basicSortedOf (priority : String) (vendors : List VendorIn) : List Row :=
  (ascArgsort (basicScoresOf priority vendors)).map
    (fun i => (rowsOf vendors).getD i default)

/-- `VendorComparisonEngine.rank_vendors` of the basic engine
(comparison_engine.py:21-138).  The extraction (lines 34-47) reads no
`vendor_no` and no quoted amount; sorting is the ascending stable
`sort_values` on the rank score.  After the category winners are identified,
the first `RankingResult(...)` construction raises pydantic's
`ValidationError` because `vendor_no` and `display_score` are required but
not passed; the record supplied to the checked constructor fills the two
never-observable fields with placeholders. -/
def rankVendorsBasic (priority : String) (vendors : List VendorIn) :
    Except EngineError (List RankingResult) :=
  if vendors.isEmpty then .ok []
  else
    let rows := rowsOf vendors
    let scores := basicScoresOf priority vendors
    let order := ascArgsort scores
    let sorted := basicSortedOf priority vendors
    let st := poolStats rows
    match bestDeliveryName sorted with
    | none => .error .emptyDeliveryPool
    | some bd =>
      let bp := bestPriceName sorted st
      let bpay := bestPaymentName sorted st
      (order.enum.mapM (fun pi =>
        let r := rows.getD pi.2 default
        mkRankingResultChecked basicCallKwargs
          { rank := (pi.1 : ℤ) + 1
            vendor_name := r.vendor_name
            vendor_no := ""      -- placeholder: not passed, rejected above
            score := scores.getD pi.2 0
            display_score := 0   -- placeholder: not passed, rejected above
            price := r.price
            payment_terms_days := r.payment_days
            delivery_days := r.delivery_days
            category_winners :=
              (if r.vendor_name = bp then ["Best Price"] else []) ++
              (if r.vendor_name = bd then ["Fastest Delivery"] else []) ++
              (if r.vendor_name = bpay then ["Best Payment Terms"] else [])
            materials := r.materials
            contact := r.contact }))

/-! ## Split-award computation
(`LineItemComparisonEngine._calculate_split_award`,
src/line_item_comparison_engine.py:153-222) -/

/-- The fields of a per-material vendor quote read by the split-award
computation (`vendor_quotes` entries and `recommended_vendor`). -/
structure QuoteRef where
  vendor_name : String
  total_value : ℚ
deriving Repr, DecidableEq, Inhabited

/-- The fields of one `material_analysis` entry read by `_calculate_split_award`. -/
structure MaterialAnalysis where
  mat_code : String
  recommended : QuoteRef
  vendor_quotes : List QuoteRef
deriving Repr, DecidableEq, Inhabited

/-- One `vendor_allocation` entry (line_item_comparison_engine.py:165-179). -/
structure VendorAllocation where
  vendor_name : String
  materials : List String
  material_codes : List String
  material_count : ℕ
  total_value : ℚ
  percentage_of_order : ℚ
deriving Repr, DecidableEq, Inhabited

/-- The split-award strategy record (line_item_comparison_engine.py:207-222);
`single_vendor_name` is the `single_vendor_option` of the comparison block. -/
structure SplitAward where
  is_recommended : Bool
  total_cost_split : ℚ
  total_cost_single_vendor : ℚ
  total_savings : ℚ
  savings_percentage : ℚ
  vendor_count : ℕ
  vendor_allocation : List VendorAllocation
  single_vendor_name : String
deriving Repr, DecidableEq, Inhabited

/-- One step of building the `vendor_allocation` dict
(line_item_comparison_engine.py:161-179): allocate a material to its
recommended vendor, creating the entry on first sight. -/
def addAllocation (acc : List VendorAllocation) (m : MaterialAnalysis) :
    List VendorAllocation :=
  let name := m.recommended.vendor_name
  if (acc.map (·.vendor_name)).contains name then
    acc.map (fun a =>
      if a.vendor_name = name then
        { a with
          materials := a.materials ++ [m.mat_code]
          material_codes := a.material_codes ++ [m.mat_code]
          material_count := a.material_count + 1
          total_value := a.total_value + m.recommended.total_value }
      else a)
  else
    acc ++ [{ vendor_name := name, materials := [m.mat_code],
              material_codes := [m.mat_code], material_count := 1,
              total_value := m.recommended.total_value, percentage_of_order := 0 }]

/-- The `vendor_allocation` dict in first-insertion order (Python dicts
preserve insertion order); percentages are filled in later. -/
def buildAllocation (ms : List MaterialAnalysis) : List VendorAllocation :=
  ms.foldl addAllocation []

/-- Deduplicate keeping first occurrences. -/
def dedupFirst (l : List String) : List String :=
  l.foldl (fun acc x => if acc.contains x then acc else acc ++ [x]) []

/-- The `all_vendors` set of line_item_comparison_engine.py:181-184.  CPython
iterates a `set` in hash order; the embedding fixes first-occurrence order,
and the facts proved about the minimum cost are order-independent. -/
def allVendorNames (ms : List MaterialAnalysis) : List String :=
  dedupFirst (ms.flatMap (fun m => m.vendor_quotes.map (·.vendor_name)))

/-- Whether a vendor has a quote for every material (the `can_supply` loop,
lines 188-196). -/
def canSupplyAll (ms : List MaterialAnalysis) (v : String) : Bool :=
  ms.all (fun m => m.vendor_quotes.any (fun q => q.vendor_name = v))

/-- A vendor's total cost across all materials, each material contributing its
first quote by that vendor (the `next(...)` lookup, line 191). -/
def vendorTotalCost (ms : List MaterialAnalysis) (v : String) : ℚ :=
  (ms.map (fun m =>
    (((m.vendor_quotes.find? (fun q => q.vendor_name = v)).map (·.total_value)).getD 0))).sum

/-- The `single_vendor_costs` list (lines 186-198): every vendor able to
supply every material, with its total cost. -/
def singleVendorCosts (ms : List MaterialAnalysis) : List (String × ℚ) :=
  (allVendorNames ms).filterMap (fun v =>
    if canSupplyAll ms v then some (v, vendorTotalCost ms v) else none)

/-- Python `min(..., key=lambda x: x['total_cost'])`: the first element
attaining the minimal cost. -/
def minByCost : List (String × ℚ) → Option (String × ℚ)
  | [] => none
  | x :: xs => some (xs.foldl (fun b y => if y.2 < b.2 then y else b) x)

/-- `LineItemComparisonEngine._calculate_split_award`
(line_item_comparison_engine.py:153-222). -/
def calcSplitAward (ms : List MaterialAnalysis) : SplitAward :=
  if ms.isEmpty then
    { is_recommended := false, total_cost_split := 0, total_cost_single_vendor := 0,
      total_savings := 0, savings_percentage := 0, vendor_count := 0,
      vendor_allocation := [], single_vendor_name := "" }
  else
    let alloc0 := buildAllocation ms
    let totalSplit := (ms.map (fun m => m.recommended.total_value)).sum
    let best := (minByCost (singleVendorCosts ms)).getD ("Unknown", 0)
    let savings := best.2 - totalSplit
    let savingsPct := if 0 < best.2 then savings / best.2 * 100 else 0
    { is_recommended := decide (0 < savings) && decide (1 < alloc0.length)
      total_cost_split := pyRound2 totalSplit
      total_cost_single_vendor := pyRound2 best.2
      total_savings := pyRound2 savings
      savings_percentage := pyRound2 savingsPct
      vendor_count := alloc0.length
      vendor_allocation := alloc0.map (fun a =>
        { a with percentage_of_order :=
            if 0 < totalSplit then a.total_value / totalSplit * 100 else 0 })
      single_vendor_name := best.1 }

/-! ## Negotiation-tip parsing
(`AIInsightsEngineEnhanced._generate_negotiation_tips_llm`,
src/ai_engine_enhanced.py:569-605) -/

/-- The ASCII whitespace recognised by Python `str.strip()` and `\s`. -/
def isPyWs (c : Char) : Bool :=
  c = ' ' || c = '\t' || c = '\n' || c = '\r' || c = '\x0b' || c = '\x0c'

/-- Python `str.strip()`. -/
def pyStripList (l : List Char) : List Char :=
  ((l.dropWhile isPyWs).reverse.dropWhile isPyWs).reverse

def pyStrip (s : String) : String := String.mk (pyStripList s.toList)

/-- One `re.sub(r'^\d+[\.\)]\s*', '', line)` application: a non-empty leading
digit run followed immediately by a dot or a closing parenthesis, plus any
following whitespace, is removed; otherwise the line is unchanged. -/
def dropNumbering (l : List Char) : List Char :=
  let ds := l.takeWhile (·.isDigit)
  if ds.isEmpty then l
  else
    match l.drop ds.length with
    | c :: rest => if c = '.' || c = ')' then rest.dropWhile isPyWs else l
    | [] => l

/-- The canned fallback tips (ai_engine_enhanced.py:589-593). -/
def fallbackTips : List String :=
  ["Leverage competitive pricing to negotiate 5% reduction",
   "Request volume discounts for bulk orders",
   "Negotiate extended payment terms for cash flow improvement"]

/-- The per-line normalisation of the parsing loop (lines 599-601): strip the
line, then drop a numbering marker. -/
def cleanTipLine (line : String) : String :=
  String.mk (dropNumbering (pyStrip line).toList)

/-- The keep condition (line 602): `if line and len(line) > 10`. -/
def keepTip (l : String) : Bool := decide (l ≠ "" ∧ 10 < l.length)

/-- The per-line body of the parsing loop (ai_engine_enhanced.py:598-603). -/
def tipLine (line : String) : Option String :=
  let l := cleanTipLine line
  if keepTip l then some l else none

/-- Python `text.split(chr)` on a single separator character, written directly
on the character list. -/
def splitOnChar (sep : Char) : List Char → List (List Char)
  | [] => [[]]
  | c :: rest =>
    if c = sep then [] :: splitOnChar sep rest
    else
      match splitOnChar sep rest with
      | [] => [[c]]
      | g :: gs => (c :: g) :: gs

/-- Tip parsing applied to the text returned for negotiation tips
(ai_engine_enhanced.py:596-605): surviving lines of `result.split('\n')` in
order, truncated to 3, with the canned fallback when nothing survives. -/
def parseTips (text : String) : List String :=
  let tips := ((splitOnChar '\n' text.toList).map String.mk).filterMap tipLine
  if tips.isEmpty then fallbackTips else tips.take 3

/-! ## Markdown cleaning (`AIInsightsEngineEnhanced._clean_markdown`,
src/ai_engine_enhanced.py:387-418)

Each `re.sub` pass is modelled as a left-to-right scan.  The recursions carry
an explicit fuel; every step consumes at least one input character, so fuel
`length + 1` reproduces the unbounded scan while keeping every definition
structurally recursive (and hence evaluable by the kernel). -/

/-- Lazy-group scan: after an opener, find the shortest non-empty group whose
characters avoid `forb`, followed by the literal `close`; return the group and
the suffix after the close. -/
def scanClose (close forb : List Char) : List Char → Option (List Char × List Char)
  | [] => none
  | c :: cs =>
    if forb.contains c then none
    else if close.isPrefixOf cs then some ([c], cs.drop close.length)
    else
      match scanClose close forb cs with
      | some (g, r) => some (c :: g, r)
      | none => none

/-- Lazy-group scan allowing an empty group (for `[\s\S]*?`). -/
def scanClose0 (close : List Char) (l : List Char) : Option (List Char × List Char) :=
  if close.isPrefixOf l then some ([], l.drop close.length) else scanClose close [] l

/-- Generic `re.sub(opener + lazy-group + close, repl, text)` pass: at each
position where the opener matches and a close follows a valid group, emit the
group (or nothing when `emitGroup` is false) and continue after the match;
otherwise emit one character and move on. -/
def subLazyF (opener close forb : List Char) (emitGroup allowEmpty : Bool) :
    Nat → List Char → List Char
  | 0, l => l
  | fuel + 1, l =>
    match l with
    | [] => []
    | c :: cs =>
      if opener.isPrefixOf l then
        let tail := l.drop opener.length
        match (if allowEmpty then scanClose0 close tail else scanClose close forb tail) with
        | some (g, r) =>
          (if emitGroup then g else []) ++
            subLazyF opener close forb emitGroup allowEmpty fuel r
        | none => c :: subLazyF opener close forb emitGroup allowEmpty fuel cs
      else c :: subLazyF opener close forb emitGroup allowEmpty fuel cs

/-- Wrapper running a lazy-substitution pass with sufficient fuel. -/
def subLazy (opener close forb : List Char) (emitGroup allowEmpty : Bool)
    (l : List Char) : List Char :=
  subLazyF opener close forb emitGroup allowEmpty (l.length + 1) l

/-- `re.sub(r'\[([^\]]+)\]\([^\)]+\)', r'\1', text)`: markdown links. -/
def subLinksF : Nat → List Char → List Char
  | 0, l => l
  | fuel + 1, l =>
    match l with
    | [] => []
    | c :: cs =>
      if c = '[' then
        match scanClose [']'] [']'] cs with
        | some (g1, r1) =>
          match r1 with
          | '(' :: r2 =>
            match scanClose [')'] [')'] r2 with
            | some (_, r3) => g1 ++ subLinksF fuel r3
            | none => c :: subLinksF fuel cs
          | _ => c :: subLinksF fuel cs
        | none => c :: subLinksF fuel cs
      else c :: subLinksF fuel cs

/-- `re.sub(r'^#{1,6}\s+', '', text, flags=re.MULTILINE)`: at the start of the
string or after a newline of the original text, a run of 1-6 hashes followed
by at least one whitespace character (greedily consumed) is removed; the
line-start flag after a match is determined by the last consumed character. -/
def subHeadersF : Nat → Bool → List Char → List Char
  | 0, _, l => l
  | fuel + 1, atStart, l =>
    match l with
    | [] => []
    | c :: cs =>
      if atStart then
        let hs := l.takeWhile (· = '#')
        let rest1 := l.drop hs.length
        let ws := rest1.takeWhile isPyWs
        if 1 ≤ hs.length && hs.length ≤ 6 && !ws.isEmpty then
          subHeadersF fuel (ws.getLast? == some '\n') (rest1.drop ws.length)
        else c :: subHeadersF fuel (c = '\n') cs
      else c :: subHeadersF fuel (c = '\n') cs

/-- `re.sub(r'^\*+\s*', '', text)` (no MULTILINE): a leading star run and the
whitespace after it are removed once, at the start of the string only. -/
def stripLeadingStars (l : List Char) : List Char :=
  if l.headD ' ' = '*' then (l.dropWhile (· = '*')).dropWhile isPyWs else l

/-- `re.sub(r'\s*\*+$', '', text)`: `$` matches at the end of the string or
just before a final newline; the leftmost match extends the whitespace run
before the trailing star run as far left as possible. -/
def stripTrailingStars (l : List Char) : List Char :=
  let pair := if l.getLast? = some '\n' then (l.dropLast, ['\n']) else (l, [])
  if pair.1.getLast? = some '*' then
    (((pair.1.reverse.dropWhile (· = '*')).dropWhile isPyWs).reverse) ++ pair.2
  else l

/-- `re.sub(r'\n\*+\s*\n', '\n\n', text)`: a newline, a star run, then
whitespace up to and including the last newline of the following whitespace
run, replaced by two newlines. -/
def subStarLinesF : Nat → List Char → List Char
  | 0, l => l
  | fuel + 1, l =>
    match l with
    | [] => []
    | c :: cs =>
      if c = '\n' then
        let stars := cs.takeWhile (· = '*')
        if stars.isEmpty then c :: subStarLinesF fuel cs
        else
          let after := cs.drop stars.length
          let ws := after.takeWhile isPyWs
          let trailing := ws.reverse.takeWhile (· ≠ '\n')
          if trailing.length = ws.length then c :: subStarLinesF fuel cs
          else '\n' :: '\n' :: subStarLinesF fuel (after.drop (ws.length - trailing.length))
      else c :: subStarLinesF fuel cs

/-- `re.sub(r'\n{3,}', '\n\n', text)`: runs of three or more newlines collapse
to two. -/
def collapseNewlinesF : Nat → List Char → List Char
  | 0, l => l
  | fuel + 1, l =>
    match l with
    | [] => []
    | c :: cs =>
      if c = '\n' then
        let run := 1 + (cs.takeWhile (· = '\n')).length
        if 3 ≤ run then '\n' :: '\n' :: collapseNewlinesF fuel (cs.drop (run - 1))
        else c :: collapseNewlinesF fuel cs
      else c :: collapseNewlinesF fuel cs

/-- `re.sub(r' {2,}', ' ', text)`: runs of two or more spaces collapse to one. -/
def collapseSpacesF : Nat → List Char → List Char
  | 0, l => l
  | fuel + 1, l =>
    match l with
    | [] => []
    | c :: cs =>
      if c = ' ' then
        let run := 1 + (cs.takeWhile (· = ' ')).length
        if 2 ≤ run then ' ' :: collapseSpacesF fuel (cs.drop (run - 1))
        else c :: collapseSpacesF fuel cs
      else c :: collapseSpacesF fuel cs

/-- `AIInsightsEngineEnhanced._clean_markdown` (ai_engine_enhanced.py:387-418):
the fourteen passes in source order. -/
def cleanMarkdown (s : String) : String :=
  let l0 := s.toList
  let l1 := subLazy ['*', '*'] ['*', '*'] ['\n'] true false l0   -- bold **x**
  let l2 := subLazy ['_', '_'] ['_', '_'] ['\n'] true false l1   -- bold __x__
  let l3 := subLazy ['*'] ['*'] ['\n'] true false l2             -- italic *x*
  let l4 := subLazy ['_'] ['_'] ['\n'] true false l3             -- italic _x_
  let l5 := subHeadersF (l4.length + 1) true l4                  -- headers
  let l6 := subLinksF (l5.length + 1) l5                         -- links
  let l7 := subLazy ['`', '`', '`'] ['`', '`', '`'] [] false true l6  -- fenced code
  let l8 := subLazy ['`'] ['`'] ['`'] true false l7              -- inline code
  let l9 := stripLeadingStars l8
  let l10 := stripTrailingStars l9
  let l11 := subStarLinesF (l10.length + 1) l10
  let l12 := collapseNewlinesF (l11.length + 1) l11
  let l13 := collapseSpacesF (l12.length + 1) l12
  String.mk (pyStripList l13)

/-! ## IEEE-754 binary64 side model (claim C4)

Every value arising in the display-score computation is far from the binary64
overflow and subnormal ranges, so rounding to 53 significant bits with ties
to even models the arithmetic exactly. -/

/-- Fuelled structural floor of the base-2 logarithm on naturals. -/
def natLog2F : Nat → Nat → Nat
  | 0, _ => 0
  | fuel + 1, n => if n ≤ 1 then 0 else 1 + natLog2F fuel (n / 2)

/-- Floor of the base-2 logarithm of a natural number (0 for 0 and 1). -/
def natLog2 (n : Nat) : Nat := natLog2F n n

/-- Floor of the base-2 logarithm of a positive rational, from the bit lengths
of numerator and denominator corrected by direct comparison. -/
def qLog2 (q : ℚ) : ℤ :=
  let e : ℤ := (natLog2 q.num.natAbs : ℤ) - (natLog2 q.den : ℤ)
  if (2 : ℚ) ^ (e + 1) ≤ q then e + 1
  else if (2 : ℚ) ^ e ≤ q then e
  else e - 1

/-- Round a rational to the nearest IEEE-754 binary64 value (round half to
even), ignoring overflow and subnormals. -/
def roundD (q : ℚ) : ℚ :=
  if q = 0 then 0
  else
    let m := |q|
    let e := qLog2 m
    let n := roundHalfEven (m * (2 : ℚ) ^ (52 - e))
    (if q < 0 then (-1 : ℚ) else 1) * (n : ℚ) * (2 : ℚ) ^ (e - 52)

/-- comparison_engine_enhanced.py:135-139 under IEEE-754 double semantics:
`80/(N-1)`, the product with `rank-1` and the subtraction from 100 each round
to the nearest double before `int()` truncates. -/
def displayScoreFP (total rank : ℕ) : ℤ :=
  if 1 < total then
    let step := roundD (80 / ((total : ℚ) - 1))
    let prod := roundD (((rank : ℚ) - 1) * step)
    pyTrunc (roundD (100 - prod))
  else 100

/-! ## Specification-side definitions

These definitions transcribe the wording of the claims under scrutiny (not the
source); the claim theorems relate them to the source embeddings above. -/

/-- The composite rank score exactly as the claim words it: for each of the
three dimensions, the normalized rank fraction — `(N − rank_asc + 1)/N` for
price and delivery, `rank_desc/N` for payment terms — times the priority
weight times 10, summed. -/
def claimCompositeScore (priority : String) (vendors : List VendorIn) (j : ℕ) : ℚ :=
  let w := weightsFor priority
  let n := vendors.length
  let v := vendors.getD j default
  ((n - rankAvgAsc (vendors.map (·.price)) v.price + 1) / n) * w.price * 10 +
  ((n - rankAvgAsc (vendors.map (fun u => (u.delivery_days : ℚ))) (v.delivery_days : ℚ) + 1) / n)
    * w.delivery * 10 +
  (rankAvgDesc (vendors.map (fun u => (u.payment_terms_days : ℚ))) (v.payment_terms_days : ℚ) / n)
    * w.payment_terms * 10

/-- The price dimension step function exactly as the claim words it, as a
function of the percentage `p` above the pool minimum. -/
def claimPriceStep (p : ℚ) : ℚ :=
  if p = 0 then 10
  else if p < 2 then 19/2
  else if p < 5 then 9
  else if p < 10 then 15/2
  else if p < 15 then 6
  else if p < 20 then 9/2
  else if p < 30 then 3
  else 3/2

/-- The PRICE dimension score recorded in a vendor analysis. -/
def priceDimScore (v : VendorAnalysis) : Option ℚ :=
  (v.dimension_scores.find? (fun d => d.dimension_code == "PRICE")).bind (·.score)

/-- A rational that is a whole number of hundredths (cents); on such values
the 2-decimal rounding of the split-award output is the identity. -/
def CentValued (q : ℚ) : Prop := ∃ k : ℤ, q = (k : ℚ) / 100

/-- The costs of the vendors able to supply every material, as the claim
describes them. -/
def canSupplyAllCosts (ms : List MaterialAnalysis) : List ℚ :=
  ((allVendorNames ms).filter (fun v => canSupplyAll ms v)).map (vendorTotalCost ms)

/-- Tip parsing as the amended claim words it: split into lines, strip each
line and drop its numbering marker, keep only lines strictly longer than 10
characters, return the first 3 survivors, or the canned fallback tips when no
line survives. -/
def parseTipsAmendedSpec (text : String) : List String :=
  let survivors :=
    (((splitOnChar '\n' text.toList).map String.mk).map cleanTipLine).filter keepTip
  if survivors.isEmpty then fallbackTips else survivors.take 3

/-- No character that can open a markdown pattern handled by the cleaner. -/
def noMarkerChars (l : List Char) : Bool :=
  l.all (fun c => !(c = '*' || c = '_' || c = '#' || c = '`' || c = '['))

/-- No two adjacent spaces. -/
def noDoubleSpace : List Char → Bool
  | [] => true
  | [_] => true
  | a :: b :: rest => !(a = ' ' && b = ' ') && noDoubleSpace (b :: rest)

/-- No three adjacent newlines. -/
def noTripleNewline : List Char → Bool
  | [] => true
  | [_] => true
  | [_, _] => true
  | a :: b :: c :: rest =>
    !(a = '\n' && b = '\n' && c = '\n') && noTripleNewline (b :: c :: rest)

/-- A string on which every pass of the markdown cleaner is the identity: no
markdown marker characters, no runs of blank lines or doubled spaces, and no
leading or trailing whitespace. -/
def cleanedShape (s : String) : Bool :=
  noMarkerChars s.toList && noDoubleSpace s.toList && noTripleNewline s.toList &&
  (match s.toList.head? with | some c => !isPyWs c | none => true) &&
  (match s.toList.getLast? with | some c => !isPyWs c | none => true)

/-! ## Concrete inputs used by the witnesses and counterexamples -/

/-- Three-vendor pool: distinct prices, payments and deliveries. -/
def exPool : List VendorIn :=
  [⟨"Alpha Traders", "V001", 100, 0, 10, [], ⟨"", "", ""⟩⟩,
   ⟨"Beta Supplies", "V002", 120, 30, 5, [], ⟨"", "", ""⟩⟩,
   ⟨"Gamma Corp", "V003", 110, 60, 8, [], ⟨"", "", ""⟩⟩]

/-- Two identical vendors: every dimension score is 10.0, so the overall
score reaches 10.8. -/
def exEqualPool : List VendorIn :=
  [⟨"Echo One", "V011", 100, 30, 7, [], ⟨"", "", ""⟩⟩,
   ⟨"Echo Two", "V012", 100, 30, 7, [], ⟨"", "", ""⟩⟩]

/-- Price pool hitting the claimed thresholds: minimum 100, then 3%, 25% and
40% above it. -/
def exPricePool : List VendorIn :=
  [⟨"P Min", "V021", 100, 30, 7, [], ⟨"", "", ""⟩⟩,
   ⟨"P Three", "V022", 103, 30, 7, [], ⟨"", "", ""⟩⟩,
   ⟨"P TwentyFive", "V023", 125, 30, 7, [], ⟨"", "", ""⟩⟩,
   ⟨"P Forty", "V024", 140, 30, 7, [], ⟨"", "", ""⟩⟩]

/-- A pool in which every vendor has the same price. -/
def exSamePricePool : List VendorIn :=
  [⟨"S One", "V031", 100, 30, 7, [], ⟨"", "", ""⟩⟩,
   ⟨"S Two", "V032", 100, 0, 9, [], ⟨"", "", ""⟩⟩]

/-- A non-empty pool in which no vendor has positive delivery days. -/
def exZeroDeliveryPool : List VendorIn :=
  [⟨"Zed Industrial", "V041", 50, 30, 0, [], ⟨"", "", ""⟩⟩]

/-- Seventeen identical vendors: one more than numpy's small-array
insertion-sort threshold, with every composite rank score tied, so the output
order is decided entirely by the tie behaviour of the unstable default sort
kernel. -/
def exTiedPool : List VendorIn :=
  List.replicate 17 ⟨"Tied Vendor", "V100", 100, 30, 7, [], ⟨"", "", ""⟩⟩

/-- Split-award example (spec §8.7): two materials, split across X and Y
beats the best single vendor by 10. -/
def exSplitMaterials : List MaterialAnalysis :=
  [⟨"M1", ⟨"X", 100⟩, [⟨"X", 100⟩, ⟨"Y", 110⟩]⟩,
   ⟨"M2", ⟨"Y", 120⟩, [⟨"X", 130⟩, ⟨"Y", 120⟩]⟩]

/-- Sub-cent split-award input: the recommended vendor is not the cheapest and
the quote totals are not whole cents, so rounding the difference is not the
difference of the rounded values. -/
def exSubCentMaterials : List MaterialAnalysis :=
  [⟨"M1", ⟨"Y", 1006/1000⟩, [⟨"X", 3/1000⟩, ⟨"Y", 1006/1000⟩]⟩]

/-! # Theorems -/

/-! ## Claim C6 — payment-term maps -/

/-- C6: the gateway payment-term mapping is the total function sending 000→0,
015→15, 030→30, 060→60, 090→90 and every other code to 0; the line-item
engine's mapping agrees on these 3-digit codes and additionally sends 00→0,
01→90, 02→30, 03→45, 04→60, 05→90, with every other code mapping to 0. -/
theorem claim_C6_payment_term_maps :
    (mapPaymentTermDB "000" = 0 ∧ mapPaymentTermDB "015" = 15 ∧
      mapPaymentTermDB "030" = 30 ∧ mapPaymentTermDB "060" = 60 ∧
      mapPaymentTermDB "090" = 90) ∧
    (∀ s : String, s ∉ gatewayCodes → mapPaymentTermDB s = 0) ∧
    (∀ s ∈ gatewayCodes, mapPaymentTermLineItem s = mapPaymentTermDB s) ∧
    (mapPaymentTermLineItem "00" = 0 ∧ mapPaymentTermLineItem "01" = 90 ∧
      mapPaymentTermLineItem "02" = 30 ∧ mapPaymentTermLineItem "03" = 45 ∧
      mapPaymentTermLineItem "04" = 60 ∧ mapPaymentTermLineItem "05" = 90) ∧
    (∀ s : String, s ∉ gatewayCodes → s ∉ twoDigitCodes →
      mapPaymentTermLineItem s = 0) := by
  refine ⟨by decide, ?_, by decide, by decide, ?_⟩
  · intro s hs
    simp only [gatewayCodes, List.mem_cons, List.not_mem_nil, or_false, not_or] at hs
    obtain ⟨h1, h2, h3, h4, h5⟩ := hs
    simp [mapPaymentTermDB, h1, h2, h3, h4, h5]
  · intro s hs ht
    simp only [gatewayCodes, List.mem_cons, List.not_mem_nil, or_false, not_or] at hs
    simp only [twoDigitCodes, List.mem_cons, List.not_mem_nil, or_false, not_or] at ht
    obtain ⟨h1, h2, h3, h4, h5⟩ := hs
    obtain ⟨g1, g2, g3, g4, g5, g6⟩ := ht
    simp [mapPaymentTermLineItem, h1, h2, h3, h4, h5, g1, g2, g3, g4, g5, g6]

/-- Witness for C6: the default branches at concrete unrecognised codes. -/
theorem claim_C6_witness :
    mapPaymentTermDB "ZZZ" = 0 ∧ mapPaymentTermLineItem "ZZ" = 0 :=
  ⟨claim_C6_payment_term_maps.2.1 "ZZZ" (by decide),
   claim_C6_payment_term_maps.2.2.2.2 "ZZ" (by decide) (by decide)⟩

/-! ## Claim C7 — basic engine never returns a valid RankingResult -/

/-- C7 (code bug): on a concrete non-empty vendor list the basic engine's
`rank_vendors` does not return one `RankingResult` per vendor — the first
construction is rejected because the required model fields `vendor_no` and
`display_score` are missing from the construction call
(comparison_engine.py:124-134 versus models.py:85 and 87). -/
theorem claim_C7_basic_ranking_validation_error :
    rankVendorsBasic "balanced" exPool =
      .error (.missingRequiredFields ["vendor_no", "display_score"]) := by decide

/-! ## Claim C4 — display score under IEEE doubles -/

set_option maxRecDepth 40000 in
/-- C4 (code bug): for a pool of 148 vendors the bottom-ranked vendor's
display score, computed by the source in double precision, is 19 — outside
the claimed (and documented, models.py:87) range [20,100] — while the claimed
formula in exact arithmetic gives 20. -/
theorem claim_C4_display_score_float_bug :
    displayScoreFP 148 148 = 19 ∧ displayScoreExact 148 148 = 20 ∧
    ¬ (20 ≤ displayScoreFP 148 148) := by decide

/-! ## Claim C8 — negotiation-tip parsing -/

/-- C8 counterexample: a line of exactly 10 characters is not "shorter than
10 characters", yet the parser discards it (the code requires length
strictly greater than 10) and falls back to the canned tips. -/
theorem claim_C8_counterexample :
    ("abcdefghij" : String).length = 10 ∧
    parseTips "abcdefghij" = fallbackTips ∧
    fallbackTips ≠ ["abcdefghij"] := by decide

/-- Lines processed by the parsing loop equal the normalise-then-filter
description. -/
theorem filterMap_tipLine_eq (lines : List String) :
    lines.filterMap tipLine = (lines.map cleanTipLine).filter keepTip := by
  induction lines with
  | nil => rfl
  | cons a t ih =>
    by_cases hk : keepTip (cleanTipLine a) = true
    · simp [List.filterMap_cons, tipLine, hk, List.filter_cons, ih]
    · simp [List.filterMap_cons, tipLine, Bool.eq_false_iff.mpr hk, List.filter_cons, ih,
        hk]

/-- C8 (amended): the parser strips a leading numbering prefix from each
stripped line, keeps only lines strictly longer than 10 characters (a line of
exactly 10 characters is discarded), returns at most the first 3 survivors,
and falls back to the 3 canned tips when no line survives. -/
theorem claim_C8_tips_parsing (text : String) :
    parseTips text = parseTipsAmendedSpec text := by
  simp only [parseTips, parseTipsAmendedSpec, filterMap_tipLine_eq]

/-! ## Claim C10 — empty fastest-delivery pool -/

/-- When every row of the sorted frame has non-positive delivery days the
fastest-delivery selection is empty and `idxmin` has no row to return. -/
theorem bestDeliveryName_eq_none {sorted : List Row}
    (h : ∀ r ∈ sorted, r.delivery_days ≤ 0) : bestDeliveryName sorted = none := by
  unfold bestDeliveryName
  have hf : sorted.filter (fun r => decide (0 < r.delivery_days)) = [] := by
    rw [List.filter_eq_nil_iff]
    intro r hr
    simpa using h r hr
  simp [hf]

/-- Rows of the sorted frame come from the input vendors. -/
theorem sorted_rows_delivery {priority : String} {vendors : List VendorIn}
    (hz : ∀ v ∈ vendors, v.delivery_days ≤ 0) :
    ∀ r ∈ sortedOf priority vendors, r.delivery_days ≤ 0 := by
  intro r hr
  simp only [sortedOf, List.mem_map] at hr
  obtain ⟨i, _hi, rfl⟩ := hr
  by_cases hlt : i < (rowsOf vendors).length
  · rw [List.getD_eq_getElem _ _ hlt]
    simp only [rowsOf] at hlt ⊢
    rw [List.getElem_map]
    exact hz _ (List.getElem_mem _)
  · rw [List.getD_eq_default _ _ (Nat.le_of_not_lt hlt)]
    exact le_refl _

/-- The same for the basic engine's sorted frame. -/
theorem basic_sorted_rows_delivery {priority : String} {vendors : List VendorIn}
    (hz : ∀ v ∈ vendors, v.delivery_days ≤ 0) :
    ∀ r ∈ basicSortedOf priority vendors, r.delivery_days ≤ 0 := by
  intro r hr
  simp only [basicSortedOf, List.mem_map] at hr
  obtain ⟨i, _hi, rfl⟩ := hr
  by_cases hlt : i < (rowsOf vendors).length
  · rw [List.getD_eq_getElem _ _ hlt]
    simp only [rowsOf] at hlt ⊢
    rw [List.getElem_map]
    exact hz _ (List.getElem_mem _)
  · rw [List.getD_eq_default _ _ (Nat.le_of_not_lt hlt)]
    exact le_refl _

/-- C10: on every non-empty vendor list in which no vendor has positive
delivery days, both engines' `rank_vendors` escape with the error raised at
the fastest-delivery category-winner lookup (`idxmin` over the empty
`delivery_days > 0` selection) instead of returning a ranking. -/
theorem claim_C10_zero_delivery_crash (priority : String) (vendors : List VendorIn)
    (hne : vendors ≠ []) (hz : ∀ v ∈ vendors, v.delivery_days ≤ 0) :
    rankVendorsEnhanced priority vendors = .error .emptyDeliveryPool ∧
    rankVendorsBasic priority vendors = .error .emptyDeliveryPool := by
  have hempty : vendors.isEmpty = false := by
    cases vendors with
    | nil => exact absurd rfl hne
    | cons v rest => rfl
  constructor
  · have hbd : bestDeliveryName (sortedOf priority vendors) = none :=
      bestDeliveryName_eq_none (sorted_rows_delivery hz)
    simp [rankVendorsEnhanced, hempty, hbd]
  · have hbd : bestDeliveryName (basicSortedOf priority vendors) = none :=
      bestDeliveryName_eq_none (basic_sorted_rows_delivery hz)
    simp [rankVendorsBasic, hempty, hbd]

/-- Witness for C10 at a concrete all-zero-delivery pool. -/
theorem claim_C10_witness :
    rankVendorsEnhanced "balanced" exZeroDeliveryPool = .error .emptyDeliveryPool ∧
    rankVendorsBasic "balanced" exZeroDeliveryPool = .error .emptyDeliveryPool :=
  claim_C10_zero_delivery_crash "balanced" exZeroDeliveryPool (by decide) (by decide)

/-! ## Structure of a successful enhanced ranking -/

/-- A successful `rank_vendors` run on a non-empty list is the result list
built from the sorted order and a fastest-delivery winner. -/
theorem rankVendorsEnhanced_ok_eq {priority : String} {vendors : List VendorIn}
    {out : List VendorAnalysis} (h : rankVendorsEnhanced priority vendors = .ok out)
    (hne : vendors ≠ []) :
    ∃ bd, bestDeliveryName (sortedOf priority vendors) = some bd ∧
      out = analysesOf priority vendors bd := by
  have hempty : vendors.isEmpty = false := by
    cases vendors with
    | nil => exact absurd rfl hne
    | cons v rest => rfl
  unfold rankVendorsEnhanced at h
  rw [hempty] at h
  simp only [Bool.false_eq_true, if_false] at h
  cases hbd : bestDeliveryName (sortedOf priority vendors) with
  | none => rw [hbd] at h; exact absurd h (by simp)
  | some bd =>
    rw [hbd] at h
    simp only [Except.ok.injEq] at h
    exact ⟨bd, rfl, h.symm⟩

theorem length_scoresOf (priority : String) (vendors : List VendorIn) :
    (scoresOf priority vendors).length = vendors.length := by
  simp [scoresOf, rowsOf]

theorem length_orderOf (priority : String) (vendors : List VendorIn) :
    (orderOf priority vendors).length = vendors.length := by
  simp [orderOf, stableDescArgsort, List.length_insertionSort, length_scoresOf]

theorem orderOf_perm (priority : String) (vendors : List VendorIn) :
    (orderOf priority vendors).Perm (List.range vendors.length) := by
  have e : (scoresOf priority vendors).length = vendors.length :=
    length_scoresOf priority vendors
  unfold orderOf stableDescArgsort
  rw [e]
  exact List.perm_insertionSort _ _

theorem orderOf_mem_lt {priority : String} {vendors : List VendorIn} {i : ℕ}
    (hi : i ∈ orderOf priority vendors) : i < vendors.length := by
  have := (orderOf_perm priority vendors).mem_iff.mp hi
  simpa [List.mem_range] using this

theorem orderOf_nodup (priority : String) (vendors : List VendorIn) :
    (orderOf priority vendors).Nodup :=
  ((orderOf_perm priority vendors).nodup_iff).mpr (List.nodup_range _)

theorem rowsOf_map_price (vendors : List VendorIn) :
    (rowsOf vendors).map (·.price) = vendors.map (·.price) := by
  simp only [rowsOf, List.map_map]
  rfl

theorem rowsOf_map_delivery (vendors : List VendorIn) :
    (rowsOf vendors).map (fun r => (r.delivery_days : ℚ)) =
      vendors.map (fun v => (v.delivery_days : ℚ)) := by
  simp only [rowsOf, List.map_map]
  rfl

theorem rowsOf_map_payment (vendors : List VendorIn) :
    (rowsOf vendors).map (fun r => (r.payment_days : ℚ)) =
      vendors.map (fun v => (v.payment_terms_days : ℚ)) := by
  simp only [rowsOf, List.map_map]
  rfl

/-- The rank-score column entry of a vendor equals the claim's composite
formula for that vendor. -/
theorem scoresOf_getD {priority : String} {vendors : List VendorIn} {j : ℕ}
    (hj : j < vendors.length) :
    (scoresOf priority vendors).getD j 0 = claimCompositeScore priority vendors j := by
  have hj' : j < (scoresOf priority vendors).length := by
    rw [length_scoresOf]; exact hj
  have hjr : j < (rowsOf vendors).length := by simpa [rowsOf] using hj
  rw [List.getD_eq_getElem _ _ hj']
  simp only [scoresOf, List.getElem_map, rowsOf, compositeScore, claimCompositeScore]
  rw [← rowsOf_map_price, ← rowsOf_map_delivery, ← rowsOf_map_payment]
  simp only [rowsOf, extractRow, List.length_map, List.getD_eq_getElem _ _ hj]

/-! ## Claim C1 — composite ranking of the enhanced engine

The claim asserts that ties in the composite score are broken by stable input
order.  The source sorts with `df.sort_values('rank_score', ascending=False)`
(comparison_engine_enhanced.py:116) and leaves the kernel at numpy's default
`kind='quicksort'`, which numpy documents as unstable: only `mergesort` and
`stable` guarantee input order on ties, and the quicksort kernel degenerates
to a stable insertion sort only on partitions below its ~16-element
threshold.  The spec states the stable tie-break as an invariant, so the
claim records the intent and the unstable default sort kind is the slip in
the code (it would need `kind='stable'`).  The theorem below evaluates the
embedding at the failing input: a pool of 17 identical vendors, where every
composite score ties, so the whole output order rests on the tie-break the
code does not guarantee. -/

set_option maxRecDepth 100000 in
/-- C1 (code bug): at a pool of 17 identical vendors — larger than numpy's
insertion-sort threshold — every entry of the engine's rank-score column is
the same value `90/17`, each vendor's claimed composite formula gives that
same value, and every analysis returned by the engine carries that score: the
scores are fully tied, so the relative order of all 17 output rows is decided
purely by the tie-break of `df.sort_values('rank_score', ascending=False)`,
which the source's default unstable `kind='quicksort'` does not pin to the
stable input order that the claim asserts. -/
theorem claim_C1_tied_pool :
    exTiedPool.length = 17 ∧
    (∀ s ∈ scoresOf "balanced" exTiedPool, s = 90/17) ∧
    (∀ i, i < 17 → claimCompositeScore "balanced" exTiedPool i = 90/17) ∧
    (∀ v ∈ (rankVendorsEnhanced "balanced" exTiedPool).toOption.getD [],
      v.score = 90/17) := by
  decide

/-! ## Claim C2 — overall score formula -/

/-- C2: every ranked vendor's overall score is
`round1(10 × [(price_score/10)·w_price + (delivery_score/10)·w_delivery +
(payment_score/10)·w_payment + (history_score/10)·0.10])` with the fixed
history score 8.0 and the priority weight table; the flat 10% history term on
top of weights summing to 1.0 lets the score exceed 10 (witnessed below at
10.8). -/
theorem claim_C2_overall_score (priority : String) (vendors : List VendorIn)
    (out : List VendorAnalysis) (hne : vendors ≠ [])
    (h : rankVendorsEnhanced priority vendors = .ok out) :
    ∀ v ∈ out,
      v.overall_score =
        pyRound1 ((priceScoreRaw (poolStatsOf vendors).minPrice
              (poolStatsOf vendors).maxPrice v.price / 10 * (weightsFor priority).price +
          deliveryScoreRaw (poolStatsOf vendors).minDelivery
              (poolStatsOf vendors).maxDelivery (v.delivery_days : ℚ) / 10
            * (weightsFor priority).delivery +
          paymentScoreRaw (poolStatsOf vendors).minPayment
              (poolStatsOf vendors).maxPayment (v.payment_terms_days : ℚ) / 10
            * (weightsFor priority).payment_terms +
          (8 / 10) * (1 / 10)) * 10) := by
  obtain ⟨bd, hbd, rfl⟩ := rankVendorsEnhanced_ok_eq h hne
  intro v hv
  simp only [analysesOf, List.mem_map] at hv
  obtain ⟨pi, hpi, rfl⟩ := hv
  rfl

/-- Witness for C2: with two identical vendors every dimension scores 10.0
and the overall score is 10.8 > 10. -/
theorem claim_C2_witness :
    ∃ v ∈ (rankVendorsEnhanced "balanced" exEqualPool).toOption.getD [],
      v.overall_score = 108 / 10 ∧ 10 < v.overall_score := by
  have h : rankVendorsEnhanced "balanced" exEqualPool =
      .ok ((rankVendorsEnhanced "balanced" exEqualPool).toOption.getD []) := by decide
  have hmem : ((rankVendorsEnhanced "balanced" exEqualPool).toOption.getD []).getD 0 default
      ∈ (rankVendorsEnhanced "balanced" exEqualPool).toOption.getD [] := by decide
  have hov := claim_C2_overall_score "balanced" exEqualPool
    ((rankVendorsEnhanced "balanced" exEqualPool).toOption.getD [])
    (by decide) h _ hmem
  refine ⟨_, hmem, ?_, ?_⟩
  · rw [hov]; decide
  · rw [hov]; decide

/-! ## Claim C3 — price dimension step function -/

/-- On nonnegative half-integer outputs the one-decimal rounding stored in
the frame is the identity. -/
theorem pyRound1_claimPriceStep (p : ℚ) :
    pyRound1 (claimPriceStep p) = claimPriceStep p := by
  unfold claimPriceStep
  repeat' split
  all_goals decide

/-- C3: for every pool in which not all prices are equal (and whose minimum
price is positive, so that the percentage above the minimum exists), each
ranked vendor's PRICE dimension score is the claimed step function of its
percentage above the pool minimum; and when every vendor quotes the same
price every vendor scores 10.0. -/
theorem claim_C3_price_dimension_step (priority : String) (vendors : List VendorIn)
    (out : List VendorAnalysis) (hne : vendors ≠ [])
    (h : rankVendorsEnhanced priority vendors = .ok out) (v : VendorAnalysis)
    (hv : v ∈ out) :
    ((poolStatsOf vendors).minPrice < (poolStatsOf vendors).maxPrice →
      0 < (poolStatsOf vendors).minPrice →
      priceDimScore v = some (claimPriceStep
        ((v.price - (poolStatsOf vendors).minPrice) / (poolStatsOf vendors).minPrice * 100))) ∧
    ((poolStatsOf vendors).minPrice = (poolStatsOf vendors).maxPrice →
      priceDimScore v = some 10) := by
  obtain ⟨bd, hbd, rfl⟩ := rankVendorsEnhanced_ok_eq h hne
  simp only [analysesOf, List.mem_map] at hv
  obtain ⟨pi, hpi, rfl⟩ := hv
  have hview : priceDimScore (mkAnalysis (weightsFor priority) (poolStatsOf vendors)
      (rowsOf vendors).length (bestPriceName (sortedOf priority vendors) (poolStatsOf vendors))
      bd (bestPaymentName (sortedOf priority vendors) (poolStatsOf vendors)) pi.1
      ((rowsOf vendors).getD pi.2 default) ((scoresOf priority vendors).getD pi.2 0)) =
      some (pyRound1 (priceScoreRaw (poolStatsOf vendors).minPrice
        (poolStatsOf vendors).maxPrice ((rowsOf vendors).getD pi.2 default).price)) := rfl
  constructor
  · intro hlt hpos
    rw [hview]
    have hstep : priceScoreRaw (poolStatsOf vendors).minPrice (poolStatsOf vendors).maxPrice
        ((rowsOf vendors).getD pi.2 default).price =
        claimPriceStep ((((rowsOf vendors).getD pi.2 default).price -
          (poolStatsOf vendors).minPrice) / (poolStatsOf vendors).minPrice * 100) := by
      unfold priceScoreRaw claimPriceStep
      rw [if_pos hlt, if_neg (ne_of_gt hpos)]
    rw [hstep, pyRound1_claimPriceStep]
    rfl
  · intro heq
    rw [hview]
    have : priceScoreRaw (poolStatsOf vendors).minPrice (poolStatsOf vendors).maxPrice
        ((rowsOf vendors).getD pi.2 default).price = 10 := by
      unfold priceScoreRaw
      rw [if_neg (by rw [heq]; exact lt_irrefl _)]
    rw [this]
    decide

/-- Witness for C3: a vendor 3% above the minimum scores 9.0, 25% scores 3.0,
40% scores 1.5, the minimum scores 10.0; in an all-equal pool every vendor
scores 10.0. -/
theorem claim_C3_witness :
    (∃ v ∈ (rankVendorsEnhanced "balanced" exPricePool).toOption.getD [],
      v.price = 103 ∧ priceDimScore v = some 9) ∧
    (∃ v ∈ (rankVendorsEnhanced "balanced" exPricePool).toOption.getD [],
      v.price = 125 ∧ priceDimScore v = some 3) ∧
    (∃ v ∈ (rankVendorsEnhanced "balanced" exPricePool).toOption.getD [],
      v.price = 140 ∧ priceDimScore v = some (3/2)) ∧
    (∃ v ∈ (rankVendorsEnhanced "balanced" exSamePricePool).toOption.getD [],
      priceDimScore v = some 10) := by
  have h1 : rankVendorsEnhanced "balanced" exPricePool =
      .ok ((rankVendorsEnhanced "balanced" exPricePool).toOption.getD []) := by decide
  have h2 : rankVendorsEnhanced "balanced" exSamePricePool =
      .ok ((rankVendorsEnhanced "balanced" exSamePricePool).toOption.getD []) := by decide
  refine ⟨?_, ?_, ?_, ?_⟩
  · have hm : ((rankVendorsEnhanced "balanced" exPricePool).toOption.getD []).getD 1 default
        ∈ (rankVendorsEnhanced "balanced" exPricePool).toOption.getD [] := by decide
    have hc := (claim_C3_price_dimension_step "balanced" exPricePool
      ((rankVendorsEnhanced "balanced" exPricePool).toOption.getD [])
      (by decide) h1 _ hm).1 (by decide) (by decide)
    exact ⟨_, hm, by decide, hc.trans (by decide)⟩
  · have hm : ((rankVendorsEnhanced "balanced" exPricePool).toOption.getD []).getD 2 default
        ∈ (rankVendorsEnhanced "balanced" exPricePool).toOption.getD [] := by decide
    have hc := (claim_C3_price_dimension_step "balanced" exPricePool
      ((rankVendorsEnhanced "balanced" exPricePool).toOption.getD [])
      (by decide) h1 _ hm).1 (by decide) (by decide)
    exact ⟨_, hm, by decide, hc.trans (by decide)⟩
  · have hm : ((rankVendorsEnhanced "balanced" exPricePool).toOption.getD []).getD 3 default
        ∈ (rankVendorsEnhanced "balanced" exPricePool).toOption.getD [] := by decide
    have hc := (claim_C3_price_dimension_step "balanced" exPricePool
      ((rankVendorsEnhanced "balanced" exPricePool).toOption.getD [])
      (by decide) h1 _ hm).1 (by decide) (by decide)
    exact ⟨_, hm, by decide, hc.trans (by decide)⟩
  · have hm : ((rankVendorsEnhanced "balanced" exSamePricePool).toOption.getD []).getD 0 default
        ∈ (rankVendorsEnhanced "balanced" exSamePricePool).toOption.getD [] := by decide
    have hc := (claim_C3_price_dimension_step "balanced" exSamePricePool
      ((rankVendorsEnhanced "balanced" exSamePricePool).toOption.getD [])
      (by decide) h2 _ hm).2 (by decide)
    exact ⟨_, hm, hc⟩

/-! ## Claim C5 — split-award computation -/

/-- Python `min` with a key returns the first minimal element. -/
theorem foldl_minByCost_spec (xs : List (String × ℚ)) :
    ∀ b : String × ℚ,
      (xs.foldl (fun b y => if y.2 < b.2 then y else b) b) ∈ b :: xs ∧
      ∀ y ∈ b :: xs, (xs.foldl (fun b y => if y.2 < b.2 then y else b) b).2 ≤ y.2 := by
  induction xs with
  | nil =>
    intro b
    refine ⟨List.mem_cons_self _ _, ?_⟩
    intro y hy
    rw [List.mem_singleton] at hy
    rw [hy]
    exact le_refl _
  | cons x t ih =>
    intro b
    have step : (if x.2 < b.2 then x else b) ∈ b :: x :: t ∧
        (if x.2 < b.2 then x else b).2 ≤ b.2 ∧ (if x.2 < b.2 then x else b).2 ≤ x.2 := by
      by_cases hx : x.2 < b.2
      · simp [hx, le_of_lt hx]
      · simp [hx, le_of_not_lt hx]
    obtain ⟨hmem0, hb0, hx0⟩ := step
    obtain ⟨hmem, hall⟩ := ih (if x.2 < b.2 then x else b)
    constructor
    · rcases List.mem_cons.mp hmem with he | ht
      · rw [List.foldl_cons]; rw [he]; exact hmem0
      · rw [List.foldl_cons]; exact List.mem_cons_of_mem _ (List.mem_cons_of_mem _ ht)
    · intro y hy
      have hself := hall _ (List.mem_cons_self _ _)
      rw [List.foldl_cons]
      rcases List.mem_cons.mp hy with rfl | hy2
      · exact le_trans hself hb0
      · rcases List.mem_cons.mp hy2 with rfl | hy3
        · exact le_trans hself hx0
        · exact hall _ (List.mem_cons_of_mem _ hy3)

/-- Specification of the first-minimal fold on a non-empty cost list. -/
theorem minByCost_spec {l : List (String × ℚ)} (hl : l ≠ []) :
    ∃ m, minByCost l = some m ∧ m ∈ l ∧ ∀ y ∈ l, m.2 ≤ y.2 := by
  cases l with
  | nil => exact absurd rfl hl
  | cons x xs =>
    obtain ⟨hmem, hall⟩ := foldl_minByCost_spec xs x
    exact ⟨_, rfl, hmem, hall⟩

/-- The costs listed by `single_vendor_costs` are exactly the can-supply-all
costs of the claim. -/
theorem singleVendorCosts_map (ms : List MaterialAnalysis) :
    (singleVendorCosts ms).map (fun x => x.2) = canSupplyAllCosts ms := by
  unfold singleVendorCosts canSupplyAllCosts
  induction allVendorNames ms with
  | nil => rfl
  | cons v t ih =>
    by_cases hv : canSupplyAll ms v = true
    · simp [List.filterMap_cons, List.filter_cons, hv, ih]
    · simp [List.filterMap_cons, List.filter_cons, Bool.eq_false_iff.mpr hv, ih, hv]

theorem centValued_add {a b : ℚ} (ha : CentValued a) (hb : CentValued b) :
    CentValued (a + b) := by
  obtain ⟨k, rfl⟩ := ha
  obtain ⟨j, rfl⟩ := hb
  exact ⟨k + j, by push_cast; ring⟩

theorem centValued_sub {a b : ℚ} (ha : CentValued a) (hb : CentValued b) :
    CentValued (a - b) := by
  obtain ⟨k, rfl⟩ := ha
  obtain ⟨j, rfl⟩ := hb
  exact ⟨k - j, by push_cast; ring⟩

theorem centValued_sum {l : List ℚ} (h : ∀ q ∈ l, CentValued q) :
    CentValued l.sum := by
  induction l with
  | nil => exact ⟨0, by norm_num⟩
  | cons x t ih =>
    rw [List.sum_cons]
    exact centValued_add (h x (List.mem_cons_self _ _))
      (ih (fun q hq => h q (List.mem_cons_of_mem _ hq)))

theorem roundHalfEven_intCast (k : ℤ) : roundHalfEven (k : ℚ) = k := by
  unfold roundHalfEven
  simp [Int.floor_intCast]

/-- On whole-cent values the 2-decimal rounding is the identity. -/
theorem pyRound2_centValued {q : ℚ} (h : CentValued q) : pyRound2 q = q := by
  obtain ⟨k, rfl⟩ := h
  unfold pyRound2
  have e : (k : ℚ) / 100 * 100 = (k : ℚ) := by
    field_simp
  rw [e, roundHalfEven_intCast]

/-- A vendor's total cost is whole-cent when every quote total is. -/
theorem vendorTotalCost_centValued {ms : List MaterialAnalysis}
    (hc : ∀ m ∈ ms, ∀ q ∈ m.vendor_quotes, CentValued q.total_value) (v : String) :
    CentValued (vendorTotalCost ms v) := by
  unfold vendorTotalCost
  refine centValued_sum ?_
  intro q hq
  rw [List.mem_map] at hq
  obtain ⟨m, hm, rfl⟩ := hq
  cases hf : m.vendor_quotes.find? (fun q => q.vendor_name = v) with
  | none => exact ⟨0, by simp [hf]⟩
  | some qt =>
    have hqt : qt ∈ m.vendor_quotes := List.mem_of_find?_eq_some hf
    have := hc m hm qt hqt
    simpa [hf] using this

/-- The split cost is whole-cent when every recommended total is. -/
theorem splitCost_centValued {ms : List MaterialAnalysis}
    (hc : ∀ m ∈ ms, CentValued m.recommended.total_value) :
    CentValued ((ms.map (fun m => m.recommended.total_value)).sum) := by
  refine centValued_sum ?_
  intro q hq
  rw [List.mem_map] at hq
  obtain ⟨m, hm, rfl⟩ := hq
  exact hc m hm

/-- A cost drawn from `single_vendor_costs` is a vendor's total cost. -/
theorem mem_singleVendorCosts_snd {ms : List MaterialAnalysis} {m : String × ℚ}
    (hm : m ∈ singleVendorCosts ms) : ∃ v, m.2 = vendorTotalCost ms v := by
  unfold singleVendorCosts at hm
  rw [List.mem_filterMap] at hm
  obtain ⟨v, _hv, hf⟩ := hm
  by_cases hcan : canSupplyAll ms v = true
  · rw [if_pos hcan] at hf
    cases hf
    exact ⟨v, rfl⟩
  · rw [if_neg hcan] at hf
    cases hf

/-- C5 counterexample: with a sub-cent quote total and a recommended vendor
that is not the cheapest, the stored `total_savings` (the difference rounded
to 2 decimals) is not `total_cost_single_vendor − total_cost_split` (the
difference of the two independently rounded fields). -/
theorem claim_C5_counterexample :
    (calcSplitAward exSubCentMaterials).total_savings = -1 ∧
    (calcSplitAward exSubCentMaterials).total_cost_single_vendor -
      (calcSplitAward exSubCentMaterials).total_cost_split = -101/100 ∧
    (calcSplitAward exSubCentMaterials).total_savings ≠
      (calcSplitAward exSubCentMaterials).total_cost_single_vendor -
        (calcSplitAward exSubCentMaterials).total_cost_split := by decide

/-- C5 (amended): when at least one vendor can supply every material and all
quote totals are whole cents, `total_cost_single_vendor` is the minimum total
cost over the vendors that quoted every material, `total_savings` equals
`total_cost_single_vendor − total_cost_split`, and `is_recommended` holds
exactly when the savings are positive and more than one vendor participates
in the split allocation; on sub-cent totals the three stored fields are the
2-decimal roundings and the savings identity can fail (counterexample). -/
theorem claim_C5_split_award (ms : List MaterialAnalysis) (hne : ms ≠ [])
    (hcs : singleVendorCosts ms ≠ [])
    (hc : ∀ m ∈ ms, CentValued m.recommended.total_value ∧
      ∀ q ∈ m.vendor_quotes, CentValued q.total_value) :
    ((calcSplitAward ms).total_cost_single_vendor ∈ canSupplyAllCosts ms ∧
      ∀ c ∈ canSupplyAllCosts ms, (calcSplitAward ms).total_cost_single_vendor ≤ c) ∧
    (calcSplitAward ms).total_savings =
      (calcSplitAward ms).total_cost_single_vendor -
        (calcSplitAward ms).total_cost_split ∧
    ((calcSplitAward ms).is_recommended = true ↔
      0 < (calcSplitAward ms).total_savings ∧ 1 < (calcSplitAward ms).vendor_count) := by
  have hempty : ms.isEmpty = false := by
    cases ms with
    | nil => exact absurd rfl hne
    | cons m rest => rfl
  obtain ⟨best, hmin, hmem, hall⟩ := minByCost_spec hcs
  have hbestD : (minByCost (singleVendorCosts ms)).getD ("Unknown", 0) = best := by
    rw [hmin]; rfl
  have hsplitCent : CentValued ((ms.map (fun m => m.recommended.total_value)).sum) :=
    splitCost_centValued (fun m hm => (hc m hm).1)
  have hbestCent : CentValued best.2 := by
    obtain ⟨v, hv⟩ := mem_singleVendorCosts_snd hmem
    rw [hv]
    exact vendorTotalCost_centValued (fun m hm => (hc m hm).2) v
  have hsavCent : CentValued
      (best.2 - (ms.map (fun m => m.recommended.total_value)).sum) :=
    centValued_sub hbestCent hsplitCent
  have hr : calcSplitAward ms =
      { is_recommended :=
          decide (0 < best.2 - (ms.map (fun m => m.recommended.total_value)).sum) &&
          decide (1 < (buildAllocation ms).length)
        total_cost_split := pyRound2 ((ms.map (fun m => m.recommended.total_value)).sum)
        total_cost_single_vendor := pyRound2 best.2
        total_savings :=
          pyRound2 (best.2 - (ms.map (fun m => m.recommended.total_value)).sum)
        savings_percentage := pyRound2 (if 0 < best.2 then
          (best.2 - (ms.map (fun m => m.recommended.total_value)).sum) / best.2 * 100 else 0)
        vendor_count := (buildAllocation ms).length
        vendor_allocation := (buildAllocation ms).map (fun a =>
          { a with percentage_of_order :=
              if 0 < (ms.map (fun m => m.recommended.total_value)).sum then
                a.total_value / (ms.map (fun m => m.recommended.total_value)).sum * 100
              else 0 })
        single_vendor_name := best.1 } := by
    unfold calcSplitAward
    rw [hempty]
    simp only [Bool.false_eq_true, if_false, hbestD]
  rw [hr]
  simp only [pyRound2_centValued hsplitCent, pyRound2_centValued hbestCent,
    pyRound2_centValued hsavCent]
  refine ⟨⟨?_, ?_⟩, ?_, ?_⟩
  · rw [← singleVendorCosts_map]
    exact List.mem_map_of_mem _ hmem
  · intro c hcmem
    rw [← singleVendorCosts_map, List.mem_map] at hcmem
    obtain ⟨y, hy, rfl⟩ := hcmem
    exact hall y hy
  · first
    | rfl
    | trivial
  · rw [Bool.and_eq_true, decide_eq_true_eq, decide_eq_true_eq]

/-- Witness for C5 at the spec §8.7 example: the split beats the best single
vendor by 10 and is recommended. -/
theorem claim_C5_witness :
    (calcSplitAward exSplitMaterials).is_recommended = true ∧
    (calcSplitAward exSplitMaterials).total_savings = 10 := by
  have hc : ∀ m ∈ exSplitMaterials, CentValued m.recommended.total_value ∧
      ∀ q ∈ m.vendor_quotes, CentValued q.total_value := by
    intro m hm
    simp only [exSplitMaterials, List.mem_cons, List.not_mem_nil, or_false] at hm
    rcases hm with rfl | rfl
    · refine ⟨⟨10000, by norm_num⟩, ?_⟩
      intro q hq
      simp only [List.mem_cons, List.not_mem_nil, or_false] at hq
      rcases hq with rfl | rfl
      · exact ⟨10000, by norm_num⟩
      · exact ⟨11000, by norm_num⟩
    · refine ⟨⟨12000, by norm_num⟩, ?_⟩
      intro q hq
      simp only [List.mem_cons, List.not_mem_nil, or_false] at hq
      rcases hq with rfl | rfl
      · exact ⟨13000, by norm_num⟩
      · exact ⟨12000, by norm_num⟩
  have h := claim_C5_split_award exSplitMaterials (by decide) (by decide) hc
  exact ⟨h.2.2.mpr ⟨by decide, by decide⟩, by decide⟩

/-! ## Claim C9 — markdown-cleaning idempotence -/

theorem getLast?_mem_of_eq_some {l : List Char} {a : Char}
    (h : l.getLast? = some a) : a ∈ l := by
  have hx : a ∈ l.getLast? := by rw [h]; rfl
  obtain ⟨hne, rfl⟩ := List.mem_getLast?_eq_getLast hx
  exact List.getLast_mem hne

/-- A lazy-substitution pass is the identity when its opening character never
occurs in the text. -/
theorem subLazyF_id (op0 : Char) (opRest close forb : List Char) (eg ae : Bool) :
    ∀ (fuel : ℕ) (l : List Char), (∀ c ∈ l, c ≠ op0) →
      subLazyF (op0 :: opRest) close forb eg ae fuel l = l := by
  intro fuel
  induction fuel with
  | zero => intro l _; rfl
  | succ n ih =>
    intro l hl
    cases l with
    | nil => rfl
    | cons c cs =>
      have hc : ¬(op0 = c) := fun he => hl c (List.mem_cons_self _ _) he.symm
      have hpre : (op0 :: opRest).isPrefixOf (c :: cs) = false := by
        simp [List.isPrefixOf, hc]
      simp only [subLazyF, hpre, Bool.false_eq_true, if_false]
      exact congrArg (c :: ·) (ih cs (fun d hd => hl d (List.mem_cons_of_mem _ hd)))

/-- The link pass is the identity when no opening bracket occurs. -/
theorem subLinksF_id :
    ∀ (fuel : ℕ) (l : List Char), (∀ c ∈ l, c ≠ '[') → subLinksF fuel l = l := by
  intro fuel
  induction fuel with
  | zero => intro l _; rfl
  | succ n ih =>
    intro l hl
    cases l with
    | nil => rfl
    | cons c cs =>
      have hc : ¬(c = '[') := hl c (List.mem_cons_self _ _)
      simp only [subLinksF, if_neg hc]
      exact congrArg (c :: ·) (ih cs (fun d hd => hl d (List.mem_cons_of_mem _ hd)))

/-- The header pass is the identity when no hash occurs. -/
theorem subHeadersF_id :
    ∀ (fuel : ℕ) (a : Bool) (l : List Char), (∀ c ∈ l, c ≠ '#') →
      subHeadersF fuel a l = l := by
  intro fuel
  induction fuel with
  | zero => intro a l _; rfl
  | succ n ih =>
    intro a l hl
    cases l with
    | nil => cases a <;> rfl
    | cons c cs =>
      have hrec := ih (c = '\n') cs (fun d hd => hl d (List.mem_cons_of_mem _ hd))
      cases a with
      | false =>
        simp only [subHeadersF, Bool.false_eq_true, if_false]
        exact congrArg (c :: ·) hrec
      | true =>
        have hc : ¬(c = '#') := hl c (List.mem_cons_self _ _)
        have htw : (c :: cs).takeWhile (fun x => decide (x = '#')) = [] := by
          simp [List.takeWhile_cons, hc]
        simp only [subHeadersF, if_pos rfl, htw, List.length_nil]
        rw [show (decide (1 ≤ (0 : ℕ))) = false from rfl]
        simp only [Bool.false_and, Bool.false_eq_true, if_false]
        exact congrArg (c :: ·) hrec

/-- The leading-star pass is the identity when no star occurs. -/
theorem stripLeadingStars_id {l : List Char} (h : ∀ c ∈ l, c ≠ '*') :
    stripLeadingStars l = l := by
  unfold stripLeadingStars
  cases l with
  | nil => rfl
  | cons c cs =>
    have hc : ¬((c :: cs).headD ' ' = '*') := by
      simpa using h c (List.mem_cons_self _ _)
    rw [if_neg hc]

/-- The trailing-star pass is the identity when no star occurs. -/
theorem stripTrailingStars_id {l : List Char} (h : ∀ c ∈ l, c ≠ '*') :
    stripTrailingStars l = l := by
  unfold stripTrailingStars
  by_cases hnl : l.getLast? = some '\n'
  · have hcore : ¬(l.dropLast.getLast? = some '*') := fun he =>
      h '*' ((List.dropLast_sublist l).subset (getLast?_mem_of_eq_some he)) rfl
    simp [hnl, hcore]
  · have hcore : ¬(l.getLast? = some '*') := fun he =>
      h '*' (getLast?_mem_of_eq_some he) rfl
    simp [hnl, hcore]

/-- The star-only-line pass is the identity when no star occurs. -/
theorem subStarLinesF_id :
    ∀ (fuel : ℕ) (l : List Char), (∀ c ∈ l, c ≠ '*') →
      subStarLinesF fuel l = l := by
  intro fuel
  induction fuel with
  | zero => intro l _; rfl
  | succ n ih =>
    intro l hl
    cases l with
    | nil => rfl
    | cons c cs =>
      have hrec := ih cs (fun d hd => hl d (List.mem_cons_of_mem _ hd))
      by_cases hc : c = '\n'
      · subst hc
        have hstars : cs.takeWhile (fun x => decide (x = '*')) = [] := by
          cases cs with
          | nil => rfl
          | cons d ds =>
            have hd : ¬(d = '*') := hl d (List.mem_cons_of_mem _ (List.mem_cons_self _ _))
            simp [List.takeWhile_cons, hd]
        simp only [subStarLinesF, if_pos rfl, hstars, List.isEmpty_nil, if_true]
        exact congrArg _ hrec
      · simp only [subStarLinesF, if_neg hc]
        exact congrArg _ hrec

theorem noTripleNewline_tail {c : Char} {cs : List Char}
    (h : noTripleNewline (c :: cs) = true) : noTripleNewline cs = true := by
  cases cs with
  | nil => rfl
  | cons b rest =>
    cases rest with
    | nil => rfl
    | cons e es =>
      simp only [noTripleNewline, Bool.and_eq_true] at h
      exact h.2

/-- The blank-line collapse is the identity when no three newlines adjoin. -/
theorem collapseNewlinesF_id :
    ∀ (fuel : ℕ) (l : List Char), noTripleNewline l = true →
      collapseNewlinesF fuel l = l := by
  intro fuel
  induction fuel with
  | zero => intro l _; rfl
  | succ n ih =>
    intro l hl
    cases l with
    | nil => rfl
    | cons c cs =>
      have hrec := ih cs (noTripleNewline_tail hl)
      by_cases hc : c = '\n'
      · subst hc
        have hrun : (cs.takeWhile (fun x => decide (x = '\n'))).length ≤ 1 := by
          cases cs with
          | nil => simp
          | cons b rest =>
            by_cases hb : b = '\n'
            · subst hb
              cases rest with
              | nil => simp [List.takeWhile_cons]
              | cons e es =>
                have he : ¬(e = '\n') := by
                  intro he
                  subst he
                  simp [noTripleNewline] at hl
                simp [List.takeWhile_cons, he]
            · simp [List.takeWhile_cons, hb]
        have hcond : ¬(3 ≤ 1 + (cs.takeWhile (fun x => decide (x = '\n'))).length) := by
          omega
        simp only [collapseNewlinesF, if_pos rfl, if_neg hcond]
        exact congrArg _ hrec
      · simp only [collapseNewlinesF, if_neg hc]
        exact congrArg _ hrec

theorem noDoubleSpace_tail {c : Char} {cs : List Char}
    (h : noDoubleSpace (c :: cs) = true) : noDoubleSpace cs = true := by
  cases cs with
  | nil => rfl
  | cons b rest =>
    simp only [noDoubleSpace, Bool.and_eq_true] at h
    exact h.2

/-- The space collapse is the identity when no two spaces adjoin. -/
theorem collapseSpacesF_id :
    ∀ (fuel : ℕ) (l : List Char), noDoubleSpace l = true →
      collapseSpacesF fuel l = l := by
  intro fuel
  induction fuel with
  | zero => intro l _; rfl
  | succ n ih =>
    intro l hl
    cases l with
    | nil => rfl
    | cons c cs =>
      have hrec := ih cs (noDoubleSpace_tail hl)
      by_cases hc : c = ' '
      · subst hc
        have hrun : (cs.takeWhile (fun x => decide (x = ' '))).length = 0 := by
          cases cs with
          | nil => simp
          | cons b rest =>
            have hb : ¬(b = ' ') := by
              intro hb
              subst hb
              simp [noDoubleSpace] at hl
            simp [List.takeWhile_cons, hb]
        have hcond : ¬(2 ≤ 1 + (cs.takeWhile (fun x => decide (x = ' '))).length) := by
          omega
        simp only [collapseSpacesF, if_pos rfl, if_neg hcond]
        exact congrArg _ hrec
      · simp only [collapseSpacesF, if_neg hc]
        exact congrArg _ hrec

/-- Stripping is the identity on text without leading or trailing whitespace. -/
theorem pyStripList_id {l : List Char}
    (hh : ∀ c, l.head? = some c → isPyWs c = false)
    (hg : ∀ c, l.getLast? = some c → isPyWs c = false) :
    pyStripList l = l := by
  unfold pyStripList
  have h1 : l.dropWhile isPyWs = l := by
    cases l with
    | nil => rfl
    | cons c cs => simp [List.dropWhile_cons, hh c rfl]
  rw [h1]
  have h2 : l.reverse.dropWhile isPyWs = l.reverse := by
    cases hr : l.reverse with
    | nil => rfl
    | cons c cs =>
      have hgc : l.getLast? = some c := by
        rw [← List.head?_reverse, hr]
        rfl
      simp [List.dropWhile_cons, hg c hgc]
  rw [h2, List.reverse_reverse]

theorem string_mk_toList (s : String) : String.mk s.toList = s := by
  cases s
  rfl

/-- A string of cleaned shape is a fixed point of the markdown cleaner. -/
theorem cleanMarkdown_fixed_point {s : String} (h : cleanedShape s = true) :
    cleanMarkdown s = s := by
  unfold cleanedShape at h
  rw [Bool.and_eq_true, Bool.and_eq_true, Bool.and_eq_true, Bool.and_eq_true] at h
  obtain ⟨⟨⟨⟨hm, hds⟩, htn⟩, hhd⟩, hlast⟩ := h
  have hmk : ∀ c ∈ s.toList, c ≠ '*' ∧ c ≠ '_' ∧ c ≠ '#' ∧ c ≠ '`' ∧ c ≠ '[' := by
    intro c hc
    have h' : (((¬c = '*' ∧ ¬c = '_') ∧ ¬c = '#') ∧ ¬c = '`') ∧ ¬c = '[' := by
      simpa using List.all_eq_true.mp hm c hc
    exact ⟨h'.1.1.1.1, h'.1.1.1.2, h'.1.1.2, h'.1.2, h'.2⟩
  have hh : ∀ c, s.toList.head? = some c → isPyWs c = false := by
    intro c hc
    rw [hc] at hhd
    simpa using hhd
  have hg : ∀ c, s.toList.getLast? = some c → isPyWs c = false := by
    intro c hc
    rw [hc] at hlast
    simpa using hlast
  simp only [cleanMarkdown, subLazy]
  rw [subLazyF_id '*' ['*'] ['*', '*'] ['\n'] true false _ _
      (fun c hc => (hmk c hc).1),
    subLazyF_id '_' ['_'] ['_', '_'] ['\n'] true false _ _
      (fun c hc => (hmk c hc).2.1),
    subLazyF_id '*' [] ['*'] ['\n'] true false _ _
      (fun c hc => (hmk c hc).1),
    subLazyF_id '_' [] ['_'] ['\n'] true false _ _
      (fun c hc => (hmk c hc).2.1),
    subHeadersF_id _ true _ (fun c hc => (hmk c hc).2.2.1),
    subLinksF_id _ _ (fun c hc => (hmk c hc).2.2.2.2),
    subLazyF_id '`' ['`', '`'] ['`', '`', '`'] [] false true _ _
      (fun c hc => (hmk c hc).2.2.2.1),
    subLazyF_id '`' [] ['`'] ['`'] true false _ _
      (fun c hc => (hmk c hc).2.2.2.1),
    stripLeadingStars_id (fun c hc => (hmk c hc).1),
    stripTrailingStars_id (fun c hc => (hmk c hc).1),
    subStarLinesF_id _ _ (fun c hc => (hmk c hc).1),
    collapseNewlinesF_id _ _ htn,
    collapseSpacesF_id _ _ hds,
    pyStripList_id hh hg,
    string_mk_toList]

/-- C9 counterexample: the cleaner is not idempotent — stripping one heading
marker can expose another, which a second application strips again. -/
theorem claim_C9_counterexample :
    cleanMarkdown "## # x" = "# x" ∧
    cleanMarkdown (cleanMarkdown "## # x") = "x" ∧
    cleanMarkdown (cleanMarkdown "## # x") ≠ cleanMarkdown "## # x" := by decide

/-- C9 (amended): the markdown-stripping post-processor is idempotent on
every input whose cleaned output is free of residual markdown patterns (no
marker characters, no doubled spaces or tripled newlines, no leading or
trailing whitespace): such an output is a fixed point, so a second
application leaves it unchanged.  In general a second application can strip
further (counterexample above). -/
theorem claim_C9_clean_idempotent_on_cleaned (s : String)
    (h : cleanedShape (cleanMarkdown s) = true) :
    cleanMarkdown (cleanMarkdown s) = cleanMarkdown s :=
  cleanMarkdown_fixed_point h

/-- Witness for C9 at a concrete cleaned string. -/
theorem claim_C9_witness :
    cleanedShape (cleanMarkdown "hello world") = true ∧
    cleanMarkdown (cleanMarkdown "hello world") = cleanMarkdown "hello world" :=
  ⟨by decide, claim_C9_clean_idempotent_on_cleaned "hello world" (by decide)⟩

end VendorQA



